import Mathlib

/-!
Verification of the scymol backend core against its specification.

The Python sources are shallowly embedded: pure functions become Lean
functions, methods that mutate objects become functions on explicit state
records, fallible code returns `Except`/`Option`, and the on-disk files the
code reads and writes are represented by their lists of lines.  Machine floats
are modelled by exact rationals or reals, as noted at each definition.
-/

namespace Scymol

/-! ## Python-style primitives

Helpers mirroring the Python built-ins used by the sources: `str.split()`
(split on runs of whitespace, dropping empty fields), sequence indexing
(negative indices wrap from the end, out-of-range raises `IndexError`),
`list.index` (raises `ValueError` when the value is absent), and decimal
digit handling for `int(...)`/`float(...)` conversions. -/

/-- Errors raised by the Python runtime that the embedded code can surface. -/
inductive PyErr where
  | indexError
  | valueError
deriving DecidableEq, Repr

/-- Accumulator-based splitter behind `pyTokens`; works on the character list,
left to right, `acc` holding the (reversed) current field. -/
def splitWsAux : List Char → List Char → List (List Char)
  | [], acc => if acc.isEmpty then [] else [acc.reverse]
  | c :: cs, acc =>
      if c.isWhitespace then
        (if acc.isEmpty then splitWsAux cs [] else acc.reverse :: splitWsAux cs [])
      else splitWsAux cs (c :: acc)

/-- Python `s.split()`: fields are maximal runs of non-whitespace characters. -/
def pyTokens (s : String) : List String :=
  (splitWsAux s.toList []).map (fun cs => String.mk cs)

/-- Python sequence indexing `l[i]`: negative indices count from the end,
anything out of range raises `IndexError`. -/
def pyGet {α : Type} (l : List α) (i : ℤ) : Except PyErr α :=
  let j : ℤ := if i < 0 then i + l.length else i
  if j < 0 then .error .indexError
  else
    match l.get? j.toNat with
    | some a => .ok a
    | none => .error .indexError

/-- Python `l.index(v)`: position of the first occurrence, `ValueError` if
absent. -/
def pyIndex (l : List ℤ) (v : ℤ) : Except PyErr ℤ :=
  match l.indexOf? v with
  | some i => .ok (i : ℤ)
  | none => .error .valueError

/-- Numeric value of a decimal digit character (10 for non-digits, a value no
digit run ever produces). -/
def charDigitVal : Char → ℕ
  | '0' => 0
  | '1' => 1
  | '2' => 2
  | '3' => 3
  | '4' => 4
  | '5' => 5
  | '6' => 6
  | '7' => 7
  | '8' => 8
  | '9' => 9
  | _ => 10

/-- The decimal digit character for a value below 10 (a sentinel otherwise). -/
def digitChar10 : ℕ → Char
  | 0 => '0'
  | 1 => '1'
  | 2 => '2'
  | 3 => '3'
  | 4 => '4'
  | 5 => '5'
  | 6 => '6'
  | 7 => '7'
  | 8 => '8'
  | 9 => '9'
  | _ => '*'

/-- Value of a big-endian decimal digit-character run (what `int(...)` computes
on a run of digits, leading zeros included). -/
def digitsToNat (cs : List Char) : ℕ :=
  cs.foldl (fun a c => 10 * a + charDigitVal c) 0

/-! ## ProgressTracker — `front2back/fron2back_static_functions.py`

`calculate_progress(directory, list_of_progress)` scans the file names in the
output directory for the pattern `^(\d+)\.(\d+)_`, keeps the lexicographically
greatest `(stage, substage)` pair, and converts it to a cumulative substage
count.  The directory is embedded as its list of file names; `os.listdir`
order is irrelevant to the result. -/

/-- The regular-expression match `^(\d+)\.(\d+)_` applied to a file name:
one or more digits, a dot, one or more digits, an underscore, anchored at the
start; returns the two integer captures. -/
def matchStageSub (s : String) : Option (ℕ × ℕ) :=
  let cs := s.toList
  let d1 := cs.takeWhile Char.isDigit
  let r1 := cs.dropWhile Char.isDigit
  if d1.isEmpty then none
  else
    match r1 with
    | '.' :: r2 =>
        let d2 := r2.takeWhile Char.isDigit
        let r3 := r2.dropWhile Char.isDigit
        if d2.isEmpty then none
        else
          match r3 with
          | '_' :: _ => some (digitsToNat d1, digitsToNat d2)
          | _ => none
    | _ => none

/-- Python tuple comparison `(a, b) > (c, d)`: lexicographic. -/
def pairGt (a b c d : ℤ) : Bool := a > c ∨ (a = c ∧ b > d)

/-- The scan for the latest `(stage, substage)` pair: `latest_stage` and
`latest_substage` start at `-1`, and `latest_file` is non-empty exactly when
some file matched, which the `Option` result models. -/
def latestStagePair (files : List String) : Option (ℤ × ℤ) :=
  files.foldl
    (fun acc fn =>
      match matchStageSub fn with
      | some (st, sub) =>
          match acc with
          | none => some ((st : ℤ), (sub : ℤ))
          | some (ls, lsub) =>
              if pairGt (st : ℤ) (sub : ℤ) ls lsub then some ((st : ℤ), (sub : ℤ)) else acc
      | none => acc)
    none

/-- The cumulative substage count
`sum(len(list_of_progress[i]) for i in range(n))`, raising `IndexError` as
Python would when an index is out of range. -/
def sumStageLens (list_of_progress : List (List ℤ)) (n : ℤ) : Except PyErr ℤ :=
  (List.range n.toNat).foldlM
    (fun acc i => (pyGet list_of_progress (i : ℤ)).map (fun st => acc + (st.length : ℤ)))
    0

/-- `calculate_progress` from `front2back/fron2back_static_functions.py`:
returns `(total_progress, total_substages)`, or the uncaught Python error. -/
def calculate_progress (files : List String) (list_of_progress : List (List ℤ)) :
    Except PyErr (ℤ × ℤ) := do
  let total_substages : ℤ := (list_of_progress.map (fun st => (st.length : ℤ))).sum
  match latestStagePair files with
  | none => .ok (0, total_substages)
  | some (current_stage, current_substage) =>
      let cumulative_substages ← sumStageLens list_of_progress (current_stage - 1)
      let stage_list ← pyGet list_of_progress (current_stage - 1)
      let idx ← pyIndex stage_list current_substage
      .ok (cumulative_substages + (idx + 1), total_substages)

/-! ## Last-frame extraction — `backend/lammps_functions.py` and
`LammpsStages.write_last_trajectory`

`get_last_trajectory` reads the dump file backwards (via `FileReadBackwards`),
collecting lines until the first line containing `"TIMESTEP"` is met
(inclusive), reverses the collected lines, and splits them into the 9 header
lines and the data lines.  `write_last_trajectory` then replaces the timestep
header field (line index 1) by `"0"` and joins header and data with newlines
into `last.lammpstrj`.  Files are embedded as their lists of lines. -/

/-- Whether `pat` is a prefix of `cs` (character lists). -/
def hasPrefixChars : List Char → List Char → Bool
  | [], _ => true
  | _ :: _, [] => false
  | p :: ps, c :: cs => p == c && hasPrefixChars ps cs

/-- Whether `pat` occurs as a contiguous run inside `cs`. -/
def containsSubChars : List Char → List Char → Bool
  | pat, [] => pat.isEmpty
  | pat, c :: cs => hasPrefixChars pat (c :: cs) || containsSubChars pat cs

/-- Python `"TIMESTEP" in line` (substring containment). -/
def containsTimestepMarker (l : String) : Bool :=
  containsSubChars "TIMESTEP".toList l.toList

/-- The backward scan: the input is the file's lines in reverse order; lines
are collected up to and including the first one containing `"TIMESTEP"`. -/
def scanBackUntilMarker : List String → List String
  | [] => []
  | l :: ls =>
      if containsTimestepMarker l then [l] else l :: scanBackUntilMarker ls

/-- `get_last_trajectory`: header lines (first 9 collected) and data lines of
the final frame block. -/
def get_last_trajectory (fileLines : List String) : List String × List String :=
  let lines := (scanBackUntilMarker fileLines.reverse).reverse
  (lines.take 9, lines.drop 9)

/-- `LammpsStages.write_last_trajectory`: the content written to
`last.lammpstrj` (the timestep header field, line index 1, replaced by "0";
in the source an out-of-range index would raise, which no 9-line header
reaches). -/
def write_last_trajectory (fileLines : List String) : String :=
  let hd := get_last_trajectory fileLines
  String.intercalate "\n" (hd.1.set 1 "0" ++ hd.2)

/-- Modelled from the spec: the claim's description of the scan, stopping only
at the second backward occurrence of the timestep marker (the source code has
no such function; this definition exists to compare the claim's wording with
`get_last_trajectory`).  `seen` records whether a marker was already passed. -/
def scanBackUntilSecondMarker : List String → Bool → List String
  | [], _ => []
  | l :: ls, seen =>
      if containsTimestepMarker l then
        (if seen then [l] else l :: scanBackUntilSecondMarker ls true)
      else l :: scanBackUntilSecondMarker ls seen

/-- Modelled from the spec: last-frame extraction if the scan ran to the
second backward occurrence of the timestep marker, as the claim states. -/
def get_last_trajectory_secondOcc (fileLines : List String) :
    List String × List String :=
  let lines := (scanBackUntilSecondMarker fileLines.reverse false).reverse
  (lines.take 9, lines.drop 9)

/-- A concrete well-formed two-frame dump file (each frame: 9 header lines and
one atom line). -/
def twoFrameDump : List String :=
  ["ITEM: TIMESTEP", "0", "ITEM: NUMBER OF ATOMS", "1",
   "ITEM: BOX BOUNDS pp pp pp", "0 10", "0 10", "0 10",
   "ITEM: ATOMS id x y z", "1 0.5 0.5 0.5",
   "ITEM: TIMESTEP", "100", "ITEM: NUMBER OF ATOMS", "1",
   "ITEM: BOX BOUNDS pp pp pp", "0 10", "0 10", "0 10",
   "ITEM: ATOMS id x y z", "1 0.7 0.7 0.7"]

/-! ## Trial-retry loop — `JobRunner.run_trials` in `scymol/backend/main.py`

The loop `while self.trial_i <= inputs.number_of_trials` generates a mixture
per iteration (in `"mixture+pysimm+lammps"` mode), resets `trial_i` to 0 and
runs the stage pipeline on acceptance, breaks once
`nbr_of_mixtures_accepted == number_of_mixtures_needed`, and otherwise
increments `trial_i`.  When the condition fails — the trial budget is
exhausted — the loop simply ends: `run_trials` returns normally and `run()`
logs "Program run terminated successfully".  There is no raise anywhere on
this path.

Mixture generation (Sobol placement plus LJ scoring) is abstracted by the
oracle `accept : ℕ → Bool` giving the outcome of the n-th
`generate_mixture` call; stage execution is recorded in
`stages_executed`.  The loop is driven by explicit fuel (`none` = fuel ran
out before the loop ended); every terminating run returns `some` final state,
with no error value of any kind. -/

structure RunTrialsState where
  trial_i : ℤ
  nbr_of_mixtures_accepted : ℤ
  mixtures_generated : ℕ
  stages_executed : List ℤ
deriving DecidableEq, Repr

/-- `JobRunner.run_trials`, one While iteration per fuel unit. -/
def run_trials (number_of_trials number_of_mixtures_needed : ℤ)
    (run_mode : String) (accept : ℕ → Bool) :
    ℕ → RunTrialsState → Option RunTrialsState
  | 0, _ => none
  | fuel + 1, st =>
      if st.trial_i ≤ number_of_trials then
        if run_mode = "mixture+pysimm+lammps" then
          let acc := accept st.mixtures_generated
          let st := { st with mixtures_generated := st.mixtures_generated + 1 }
          if acc then
            let st := { st with
              nbr_of_mixtures_accepted := st.nbr_of_mixtures_accepted + 1,
              trial_i := 0 }
            let st := { st with
              stages_executed := st.stages_executed ++ [st.nbr_of_mixtures_accepted] }
            if st.nbr_of_mixtures_accepted = number_of_mixtures_needed then
              some st
            else
              run_trials number_of_trials number_of_mixtures_needed run_mode accept
                fuel { st with trial_i := st.trial_i + 1 }
          else
            run_trials number_of_trials number_of_mixtures_needed run_mode accept
              fuel { st with trial_i := st.trial_i + 1 }
        else if run_mode = "from_previous_lammps" then
          let st := { st with
            nbr_of_mixtures_accepted := st.nbr_of_mixtures_accepted + 1 }
          let st := { st with
            stages_executed := st.stages_executed ++ [st.nbr_of_mixtures_accepted] }
          run_trials number_of_trials number_of_mixtures_needed run_mode accept
            fuel { st with trial_i := st.trial_i + 1 }
        else
          run_trials number_of_trials number_of_mixtures_needed run_mode accept
            fuel { st with trial_i := st.trial_i + 1 }
      else some st

/-- The state `run_trials` starts from (`trial_i = 1`, nothing accepted). -/
def initialRunTrialsState : RunTrialsState :=
  { trial_i := 1, nbr_of_mixtures_accepted := 0, mixtures_generated := 0,
    stages_executed := [] }

/-! ## Stage builders — `scymol/backend/lammps_commands.py`,
`lammps_stages.py` and `lammps_presets_library/`

`LammpsCommands.script` is an append-only list of elements; every command
element passes through `format_line`, which splits the text on whitespace,
pads the first word to column 20 and rejoins the rest with single blanks.
Its own docstring and the spec call the padding cosmetic, so a command
element is embedded as its list of whitespace tokens (`ScriptLine.cmd`),
which determines the written line up to that padding; title/comment blocks
and raw newline elements, which the script machinery never inspects, are
embedded as their raw text (`ScriptLine.text`).  Numeric parameters (Python
ints and floats) are embedded as `ℤ`/`ℚ` and rendered with `toString` where
they are interpolated; no property proved below depends on the numeral text.

The `LammpsStages` object (stage number, substage counter, the
last-trajectory / last-instantaneous file pointers) and its
`LammpsCommands` instance (script, `dict_of_variables`) are merged into one
state record `LammpsStageState`; each preset builder's `run` method becomes
a function from this state to the next, with the commands it appends given
by a separate `..._lines` function of the pre-state. -/

inductive ScriptLine where
  | text (s : String)
  | cmd (tokens : List String)
deriving DecidableEq, Repr

structure LammpsStageState where
  stage_nbr : ℕ
  substage_nbr : ℕ
  last_lammpstrj_file : Option String
  last_instantaneous_file : Option String
  script : List ScriptLine
  dict_of_variables : List (String × String)
deriving DecidableEq, Repr

/-- Python `dict` assignment `d[k] = v`: update the first (unique) entry with
key `k` in place, else append. -/
def dictSet : List (String × String) → String → String → List (String × String)
  | [], k, v => [(k, v)]
  | (k1, v1) :: rest, k, v =>
      if k1 == k then (k1, v) :: rest else (k1, v1) :: dictSet rest k v

/-- Greedy fill behind `textwrap_wrap`, current output lines kept reversed. -/
def wrapStep (width : ℕ) (lines : List String) (w : String) : List String :=
  match lines with
  | [] => [w]
  | cur :: rest =>
      if cur.length + 1 + w.length ≤ width then (cur ++ " " ++ w) :: rest
      else w :: cur :: rest

/-- `textwrap.wrap(s, width)` on simple prose: greedy filling of
whitespace-separated words (the long-word breaking of pathological inputs is
not reached by any description the builders produce). -/
def textwrap_wrap (width : ℕ) (s : String) : List String :=
  ((pyTokens s).foldl (wrapStep width) []).reverse

def commentBar : String :=
  "#-------------------------------------------------------------------------------"

/-- `LammpsCommands.add_substage_title`: one comment-block element. -/
def add_substage_title (numbering : ℕ × ℕ) (title description : String) :
    ScriptLine :=
  .text (commentBar ++ "\n# Substage " ++ toString numbering.1 ++ "." ++
    toString numbering.2 ++ ": " ++ title ++ "\n" ++
    String.join ((textwrap_wrap 76 description).map (fun l => "# " ++ l ++ "\n")) ++
    commentBar)

/-- `LammpsCommands.add_comment`. -/
def add_comment (comment : String) (prepend_new_line append_new_line : Bool) :
    ScriptLine :=
  .text ((if prepend_new_line then "\n" else "") ++ commentBar ++ "\n# " ++
    comment ++ "\n" ++ commentBar ++ (if append_new_line then "\n" else ""))

def add_set_timestep (set_timestep_to : String) : ScriptLine :=
  .cmd ["reset_timestep", set_timestep_to]

def add_thermo_style (style_option : String) (lst_properties : List String) :
    ScriptLine :=
  .cmd (["thermo_style", style_option] ++ lst_properties)

def add_fix_npt (fix_id fix_subset temp_initial temp_final temp_ncontrol
    pres_initial pres_final pres_ncontrol drag nreset : String)
    (lst_of_additional_commands : List String) : ScriptLine :=
  .cmd (["fix", fix_id, fix_subset, "npt", "temp", temp_initial, temp_final,
    temp_ncontrol, "iso", pres_initial, pres_final, pres_ncontrol, "drag",
    drag, "nreset", nreset] ++ pyTokens (String.join lst_of_additional_commands))

def add_fix_nvt (fix_id fix_subset temp_initial temp_final temp_ncontrol
    drag nreset : String) (lst_of_additional_commands : List String) :
    ScriptLine :=
  .cmd (["fix", fix_id, fix_subset, "nvt", "temp", temp_initial, temp_final,
    temp_ncontrol, "drag", drag, "nreset", nreset] ++
    pyTokens (String.join lst_of_additional_commands))

def add_fix_nve (fix_id fix_subset nreset : String)
    (lst_of_additional_commands : List String) : ScriptLine :=
  .cmd (["fix", fix_id, fix_subset, "nve", "nreset", nreset] ++
    pyTokens (String.join lst_of_additional_commands))

def add_fix_minimize (tol_energy tol_force max_iterations max_evaluations :
    String) : ScriptLine :=
  .cmd ["minimize", tol_energy, tol_force, max_iterations, max_evaluations]

/-- `LammpsCommands.add_fix_ave_time`: the source's two branches (empty
output path or not) differ exactly by the trailing `file <path>` tokens. -/
def add_fix_ave_time (fix_id fix_subset nevery nrepeat nfreq : String)
    (list_of_properties : List String) (absolute_path_with_file : String) :
    ScriptLine :=
  .cmd (["fix", fix_id, fix_subset, "ave/time", nevery, nrepeat, nfreq] ++
    pyTokens (String.intercalate " " list_of_properties) ++
    (if absolute_path_with_file == "" then []
     else ["file", absolute_path_with_file]))

def add_dump (dump_id dump_subset style_option ndump
    absolute_path_with_file : String) (properties : List String) : ScriptLine :=
  .cmd (["dump", dump_id, dump_subset, style_option, ndump,
    absolute_path_with_file] ++ properties)

def add_timestep (timestep : String) : ScriptLine := .cmd ["timestep", timestep]

def add_run_command (nsteps : String) : ScriptLine := .cmd ["run", nsteps]

def add_undump (dump_id : String) : ScriptLine := .cmd ["undump", dump_id]

def add_unfix (fix_id : String) : ScriptLine := .cmd ["unfix", fix_id]

def add_velocities (velocities_subset temp random_seed dist_type momentum
    rotation : String) : ScriptLine :=
  .cmd ["velocity", velocities_subset, "create", temp, random_seed, "dist",
    dist_type, "mom", momentum, "rot", rotation]

def add_min_style (style : String) : ScriptLine := .cmd ["min_style", style]

def add_min_modify (dmax : String) : ScriptLine :=
  .cmd ["min_modify", "dmax", dmax]

/-- `LammpsCommands.add_variable` (the script element; the `dict_of_variables`
update is threaded by the builders' `run` functions). -/
def add_variable (var_name var_style var_expression : String) : ScriptLine :=
  .cmd (["variable", var_name, var_style] ++ pyTokens var_expression)

def valid_unit_styles : List String :=
  ["lj", "real", "metal", "si", "cgs", "electron", "micro", "nano"]

def add_units (units_style : String) : ScriptLine := .cmd ["units", units_style]

def add_boundary (boundary_style : String × String × String) : ScriptLine :=
  .cmd ["boundary", boundary_style.1, boundary_style.2.1, boundary_style.2.2]

def add_atom_style (atom_style : String) : ScriptLine :=
  .cmd ("atom_style" :: pyTokens atom_style)

def add_pair_style (pair_style : String) : ScriptLine :=
  .cmd ("pair_style" :: pyTokens pair_style)

def add_pair_modify (pair_modify : String) : ScriptLine :=
  .cmd ("pair_modify" :: pyTokens pair_modify)

def add_bond_style (bond_style : String) : ScriptLine :=
  .cmd ("bond_style" :: pyTokens bond_style)

def add_angle_style (angle_style : String) : ScriptLine :=
  .cmd ("angle_style" :: pyTokens angle_style)

def add_dihedral_style (dihedral_style : String) : ScriptLine :=
  .cmd ("dihedral_style" :: pyTokens dihedral_style)

def add_improper_style (improper_style : String) : ScriptLine :=
  .cmd ("improper_style" :: pyTokens improper_style)

def add_special_bonds (special_bonds : String) : ScriptLine :=
  .cmd ("special_bonds" :: pyTokens special_bonds)

def add_read_data (absolute_path_with_file : String) : ScriptLine :=
  .cmd ["read_data", absolute_path_with_file]

def add_thermo_modify (flush : Bool) : ScriptLine :=
  .cmd ["thermo_modify", "flush", if flush then "yes" else "no"]

def add_thermo (nthermo : String) : ScriptLine := .cmd ["thermo", nthermo]

/-- `LammpsCommands.add_change_box`: a comment block, the `change_box`
command, and a raw newline element. -/
def add_change_box (d : List String) : List ScriptLine :=
  [add_comment ("Set dimensions of the box to " ++
      String.intercalate " " d ++ ".") true false,
   .cmd (["change_box", "all", "x", "final", d.getD 0 "", d.getD 1 "",
     "y", "final", d.getD 2 "", d.getD 3 "",
     "z", "final", d.getD 4 "", d.getD 5 "", "remap", "units", "box"]),
   .text "\n"]

/-- `LammpsCommands.add_custom_change_box`: script elements appended for each
of the four box-resizing branches (an unrecognized style appends nothing). -/
def add_custom_change_box (fix_id boxdims_changeto_style : String)
    (setcubic : Bool) : List ScriptLine :=
  if boxdims_changeto_style == "Last trajectory" && !setcubic then []
  else if boxdims_changeto_style == "Last trajectory" && setcubic then
    [add_variable "lcubic" "equal" "abs(((xhi-xlo)*(yhi-ylo)*(zhi-zlo))^(1/3))"] ++
    add_change_box ["0", "${lcubic}", "0", "${lcubic}", "0", "${lcubic}"]
  else if boxdims_changeto_style == "Computed ρ(average)" && setcubic then
    [add_variable "xloave" "equal" ("f_" ++ fix_id ++ "[1]"),
     add_variable "xhiave" "equal" ("f_" ++ fix_id ++ "[2]"),
     add_variable "yloave" "equal" ("f_" ++ fix_id ++ "[3]"),
     add_variable "yhiave" "equal" ("f_" ++ fix_id ++ "[4]"),
     add_variable "zloave" "equal" ("f_" ++ fix_id ++ "[5]"),
     add_variable "zhiave" "equal" ("f_" ++ fix_id ++ "[6]"),
     add_variable "lcubic" "equal"
       "abs(((v_xhiave-v_xloave)*(v_yhiave-v_yloave)*(v_zhiave-v_zloave))^(1/3))"] ++
    add_change_box ["${xloave}", "${xhiave}", "${yloave}", "${yhiave}",
      "${zloave}", "${zhiave}"] ++
    add_change_box ["0", "${lcubic}", "0", "${lcubic}", "0", "${lcubic}"]
  else if boxdims_changeto_style == "Computed ρ(average)" && !setcubic then
    [add_variable "xloave" "equal" ("f_" ++ fix_id ++ "[1]"),
     add_variable "xhiave" "equal" ("f_" ++ fix_id ++ "[2]"),
     add_variable "yloave" "equal" ("f_" ++ fix_id ++ "[3]"),
     add_variable "yhiave" "equal" ("f_" ++ fix_id ++ "[4]"),
     add_variable "zloave" "equal" ("f_" ++ fix_id ++ "[5]"),
     add_variable "zhiave" "equal" ("f_" ++ fix_id ++ "[6]"),
     add_variable "lcubic" "equal"
       "abs(((v_xhiave-v_xloave)*(v_yhiave-v_yloave)*(v_zhiave-v_zloave))^(1/3))"] ++
    add_change_box ["${xloave}", "${xhiave}", "${yloave}", "${yhiave}",
      "${zloave}", "${zhiave}"]
  else []

/-- The variable-dictionary entries `add_custom_change_box` registers. -/
def add_custom_change_box_vars (fix_id boxdims_changeto_style : String)
    (setcubic : Bool) : List (String × String) :=
  if boxdims_changeto_style == "Last trajectory" && !setcubic then []
  else if boxdims_changeto_style == "Last trajectory" && setcubic then
    [("lcubic", "abs(((xhi-xlo)*(yhi-ylo)*(zhi-zlo))^(1/3))")]
  else if boxdims_changeto_style == "Computed ρ(average)" then
    [("xloave", "f_" ++ fix_id ++ "[1]"), ("xhiave", "f_" ++ fix_id ++ "[2]"),
     ("yloave", "f_" ++ fix_id ++ "[3]"), ("yhiave", "f_" ++ fix_id ++ "[4]"),
     ("zloave", "f_" ++ fix_id ++ "[5]"), ("zhiave", "f_" ++ fix_id ++ "[6]"),
     ("lcubic",
      "abs(((v_xhiave-v_xloave)*(v_yhiave-v_yloave)*(v_zhiave-v_zloave))^(1/3))")]
  else []

/-- Module-level `dict_of_variables` of `lammps_commands.py` (insertion
order). -/
def dict_of_variables_init : List (String × String) :=
  [("R", "0.00198722"), ("sysvol", "vol"),
   ("sysmass", "mass(all)/6.0221367e+023"),
   ("sysdensity", "v_sysmass/v_sysvol/1.0e-24"),
   ("coulomb", "ecoul+elong"), ("etotal", "etotal"), ("pe", "pe"),
   ("ke", "ke"), ("evdwl", "evdwl"), ("epair", "epair"), ("ebond", "ebond"),
   ("eangle", "eangle"), ("edihed", "edihed"), ("eimp", "eimp"), ("lx", "lx"),
   ("ly", "ly"), ("lz", "lz"), ("xhi", "xhi"), ("yhi", "yhi"), ("zhi", "zhi"),
   ("xlo", "xlo"), ("ylo", "ylo"), ("zlo", "zlo"), ("Nthermo", "0"),
   ("cella", "lx"), ("cellb", "sqrt(ly*ly+xy*xy)"),
   ("cellc", "sqrt(lz*lz+xz*xz+yz*yz)"),
   ("cellalpha", "acos((xy*xz+ly*yz)/(v_cellb*v_cellc))"),
   ("cellbeta", "acos(xz/v_cellc)"), ("cellgamma", "acos(xy/v_cellb)"),
   ("p", "press"), ("pxx", "pxx"), ("pyy", "pyy"), ("pzz", "pzz"),
   ("pyz", "pyz"), ("pxz", "pxz"), ("pxy", "pxy"), ("sxx", "-pxx"),
   ("syy", "-pyy"), ("szz", "-pzz"), ("syz", "-pyz"), ("sxz", "-pxz"),
   ("sxy", "-pxy"), ("fmax", "fmax"), ("fnorm", "fnorm"),
   ("time", "step*dt+0.000001")]

def list_thermo_style_mda : List String :=
  ["step", "v_time", "press", "vol", "v_sysdensity", "temp", "ebond",
   "eangle", "edihed", "eimp", "evdwl", "ecoul", "etail", "elong", "pe", "ke"]

def std_list_dump_properties : List String :=
  ["id", "mol", "type", "q", "xs", "ys", "zs"]

def std_list_avetime_properties_mda : List String :=
  ["v_time", "c_thermo_temp", "c_thermo_press", "v_sysvol", "v_sysdensity",
   "v_cella", "v_cellb", "v_cellc", "v_etotal", "v_pe", "v_ke", "v_evdwl",
   "v_coulomb", "v_sxx", "v_syy", "v_szz", "v_syz", "v_sxz", "v_sxy",
   "v_xhi", "v_yhi", "v_zhi", "v_xlo", "v_ylo", "v_zlo"]

/-- The state a fresh `LammpsStages(stage_nbr=...)` starts a stage with:
`substage_nbr = 1`, no file pointers, an empty command script, and the
module-level variable dictionary. -/
def initLammpsStage (stage_nbr : ℕ) : LammpsStageState :=
  { stage_nbr := stage_nbr, substage_nbr := 1, last_lammpstrj_file := none,
    last_instantaneous_file := none, script := [],
    dict_of_variables := dict_of_variables_init }

/-- Python `int(...)` truncation toward zero on an exact rational. -/
def pyIntTrunc (q : ℚ) : ℤ := q.num / (q.den : ℤ)

structure InitializationParams where
  units_style : String := "real"
  boundary_style : String × String × String := ("p", "p", "p")

structure MinimizationParams where
  set_timestep : Option ℤ := some 0

structure VelocitiesParams where
  velocities_subset : String := "all"
  temp : ℚ := 298.15
  random_seed : ℤ := 1234
  dist_type : String := "gaussian"
  momentum : String := "yes"
  rotation : String := "no"

structure NvtParams where
  temp_initial : ℚ := 298.15
  temp_final : ℚ := 298.15
  temp_ncontrol : ℤ := 100
  drag : ℚ := 0
  nreset : ℤ := 1000
  nevery : ℤ := 1
  nrepeat : ℤ := 999
  nfreq : ℤ := 1000
  ndump : ℤ := 1000
  timestep : ℚ := 1
  nrun : ℤ := 100000
  set_timestep : Option ℤ := some 0

structure NptParams where
  temp_initial : ℚ := 298.15
  temp_final : ℚ := 298.15
  temp_ncontrol : ℤ := 100
  pres_initial : ℚ := 1
  pres_final : ℚ := 1
  press_ncontrol : ℤ := 100
  drag : ℚ := 0
  nreset : ℤ := 1000
  nevery : ℤ := 1
  nrepeat : ℤ := 999
  nfreq : ℤ := 1000
  ndump : ℤ := 1000
  timestep : ℚ := 1
  nrun : ℤ := 100000
  set_timestep : Option ℤ := some 0
  boxdims_changeto : String := "Last trajectory"
  set_cubic : Bool := false

structure NveParams where
  nreset : ℤ := 1000
  nevery : ℤ := 1
  nrepeat : ℤ := 999
  nfreq : ℤ := 1000
  ndump : ℤ := 1000
  timestep : ℚ := 1
  nrun : ℤ := 100000
  set_timestep : Option ℤ := some 0

structure DeformationParams where
  comp_axis : String
  ndeformation : ℤ := 1000
  strain_style : String := "t"
  temp_initial : ℚ := 298.15
  temp_final : ℚ := 298.15
  temp_ncontrol : ℤ := 100
  drag : ℚ := 0
  nreset : ℤ := 1000
  nevery : ℤ := 1
  nrepeat : ℤ := 999
  nfreq : ℤ := 1000
  ndump : ℤ := 1000
  timestep : ℚ := 1
  nrun : ℤ := 100000
  set_timestep : Option ℤ := some 0
  wallskin : ℚ := 2

/-- `StandardInitializationSubstage.run`: the script elements appended, or
the `add_units` exception for an invalid units style (in the source the title
block is appended before the raise; no claim concerns that partial state). -/
def standard_initialization_substage_lines (p : InitializationParams)
    (st : LammpsStageState) : Except String (List ScriptLine) :=
  if p.units_style ∈ valid_unit_styles then
    .ok ([add_substage_title (st.stage_nbr, st.substage_nbr) "Initialization"
        "Initialize LAMMPS run.",
      add_units p.units_style,
      add_boundary p.boundary_style,
      add_atom_style "full",
      add_pair_style "lj/cut 12.0",
      add_pair_modify "mix arithmetic",
      add_bond_style "harmonic",
      add_angle_style "harmonic",
      add_dihedral_style "fourier",
      add_improper_style "cvff",
      add_special_bonds "amber",
      add_read_data "structure.data",
      add_comment "Declaring variables:" true false] ++
      st.dict_of_variables.map (fun kv => add_variable kv.1 "equal" kv.2) ++
      [add_thermo_style "custom" list_thermo_style_mda,
       add_thermo_modify true])
  else
    .error ("'" ++ p.units_style ++ "' is not a valid LAMMPS unit style.")

/-- `LammpsStages.standard_initialization_substage`: the resulting stage
state (pointers untouched; re-assigning every variable leaves the dictionary
entries in place). -/
def standard_initialization_substage (p : InitializationParams)
    (st : LammpsStageState) : Except String LammpsStageState :=
  (standard_initialization_substage_lines p st).map fun lines =>
    { st with
      script := st.script ++ lines,
      dict_of_variables := st.dict_of_variables.foldl
        (fun d kv => dictSet d kv.1 kv.2) st.dict_of_variables,
      substage_nbr := st.substage_nbr + 1 }

/-- The trajectory file name `StandardMinimizationSubstage.__init__` computes
and keeps on the substage object itself (not on the stage). -/
def minimization_local_lammpstrj_file (st : LammpsStageState) : String :=
  toString st.stage_nbr ++ "." ++ toString st.substage_nbr ++
    "_minimization.lammpstrj"

/-- `StandardMinimizationSubstage.run`: appended script elements. -/
def standard_minimization_substage_lines (p : MinimizationParams)
    (st : LammpsStageState) : List ScriptLine :=
  (match p.set_timestep with
   | some v => [add_set_timestep (toString v)]
   | none => []) ++
  [add_substage_title (st.stage_nbr, st.substage_nbr) "Minimization"
      "Initialize LAMMPS run.",
   add_min_style "cg",
   add_min_modify "0.05",
   add_thermo_style "custom"
     ["step", "fmax", "fnorm", "press", "vol", "v_sysdensity", "v_sxx",
      "v_syy", "v_szz", "v_syz", "v_sxz", "v_sxy", "pe", "v_cella", "v_cellb",
      "v_cellc", "v_cellalpha", "v_cellbeta", "v_cellgamma"],
   add_dump "minrun" "all" "custom" "1000"
     (minimization_local_lammpstrj_file st) std_list_dump_properties,
   add_thermo "100",
   add_fix_minimize "0.0" "0.0" "1000" "10000",
   add_undump "minrun"]

/-- `LammpsStages.standard_minimization_substage`: note that the stage's
`last_lammpstrj_file`/`last_instantaneous_file` pointers are left untouched —
the trajectory name lives on the substage object only. -/
def standard_minimization_substage (p : MinimizationParams)
    (st : LammpsStageState) : LammpsStageState :=
  { st with
    script := st.script ++ standard_minimization_substage_lines p st,
    substage_nbr := st.substage_nbr + 1 }

/-- `StandardVelocitiesStage.run`: appended script elements. -/
def standard_velocities_stage_lines (p : VelocitiesParams)
    (st : LammpsStageState) : List ScriptLine :=
  [add_substage_title (st.stage_nbr, st.substage_nbr) "Velocities"
      ("Initialize velocities to " ++ toString p.temp ++ " (seed " ++
        toString p.random_seed ++ ") using a " ++ p.dist_type ++
        " distribution."),
   add_velocities p.velocities_subset (toString p.temp)
     (toString p.random_seed) p.dist_type p.momentum p.rotation]

/-- `LammpsStages.standard_velocities_stage` (no file pointers touched). -/
def standard_velocities_stage (p : VelocitiesParams) (st : LammpsStageState) :
    LammpsStageState :=
  { st with
    script := st.script ++ standard_velocities_stage_lines p st,
    substage_nbr := st.substage_nbr + 1 }

/-- `StandardNvtStage.run`: appended script elements. -/
def standard_nvt_stage_lines (p : NvtParams) (st : LammpsStageState) :
    List ScriptLine :=
  (match p.set_timestep with
   | some v => [add_set_timestep (toString v)]
   | none => []) ++
  [add_substage_title (st.stage_nbr, st.substage_nbr) "NVT-dynamics"
      ("Run " ++ toString p.nrun ++ " steps with a timestep of " ++
        toString p.timestep ++ ". T from " ++ toString p.temp_initial ++
        " to " ++ toString p.temp_final ++ "."),
   add_thermo_style "custom" list_thermo_style_mda,
   add_fix_nvt "1" "all" (toString p.temp_initial) (toString p.temp_final)
     (toString p.temp_ncontrol) (toString p.drag) (toString p.nreset)
     ["mtk yes"],
   add_fix_ave_time "2" "all" (toString p.nevery) (toString p.nrepeat)
     (toString p.nfreq) std_list_avetime_properties_mda
     (toString st.stage_nbr ++ "." ++ toString st.substage_nbr ++
       "_nvt_instantaneous.out"),
   add_dump "1" "all" "custom" (toString p.ndump)
     (toString st.stage_nbr ++ "." ++ toString st.substage_nbr ++
       "_nvt.lammpstrj") std_list_dump_properties,
   add_timestep (toString p.timestep),
   add_run_command (toString p.nrun),
   add_unfix "1", add_unfix "2", add_undump "1"]

/-- `LammpsStages.standard_nvt_stage`: sets the stage's file pointers to this
substage's outputs, appends the commands and increments the counter. -/
def standard_nvt_stage (p : NvtParams) (st : LammpsStageState) :
    LammpsStageState :=
  { st with
    last_lammpstrj_file := some (toString st.stage_nbr ++ "." ++
      toString st.substage_nbr ++ "_nvt.lammpstrj"),
    last_instantaneous_file := some (toString st.stage_nbr ++ "." ++
      toString st.substage_nbr ++ "_nvt_instantaneous.out"),
    script := st.script ++ standard_nvt_stage_lines p st,
    substage_nbr := st.substage_nbr + 1 }

/-- `StandardNptStage.run`: appended script elements. -/
def standard_npt_stage_lines (p : NptParams) (st : LammpsStageState) :
    List ScriptLine :=
  (match p.set_timestep with
   | some v => [add_set_timestep (toString v)]
   | none => []) ++
  [add_substage_title (st.stage_nbr, st.substage_nbr) "NPT-dynamics"
      ("Run " ++ toString p.nrun ++ " steps with a timestep of " ++
        toString p.timestep ++ ". T from " ++ toString p.temp_initial ++
        " to " ++ toString p.temp_final ++ ". Pressure from " ++
        toString p.pres_initial ++ " to " ++ toString p.pres_final ++ "."),
   add_thermo_style "custom" list_thermo_style_mda,
   add_fix_npt "1" "all" (toString p.temp_initial) (toString p.temp_final)
     (toString p.temp_ncontrol) (toString p.pres_initial)
     (toString p.pres_final) (toString p.press_ncontrol) (toString p.drag)
     (toString p.nreset) ["mtk yes"],
   add_fix_ave_time "2" "all" (toString p.nevery) (toString p.nrepeat)
     (toString p.nfreq) std_list_avetime_properties_mda
     (toString st.stage_nbr ++ "." ++ toString st.substage_nbr ++
       "_npt_instantaneous.out"),
   add_fix_ave_time "3" "all" (toString (1 : ℤ))
     (toString (pyIntTrunc (p.timestep * (p.nrun : ℚ)) - 1))
     (toString (pyIntTrunc (p.timestep * (p.nrun : ℚ))))
     ["v_xlo v_xhi v_ylo v_yhi v_zlo v_zhi"] "",
   add_dump "1" "all" "custom" (toString p.ndump)
     (toString st.stage_nbr ++ "." ++ toString st.substage_nbr ++
       "_npt.lammpstrj") std_list_dump_properties,
   add_timestep (toString p.timestep),
   add_run_command (toString p.nrun)] ++
  add_custom_change_box "3" p.boxdims_changeto p.set_cubic ++
  [add_unfix "1", add_unfix "2", add_unfix "3", add_undump "1"]

/-- `LammpsStages.standard_npt_stage`. -/
def standard_npt_stage (p : NptParams) (st : LammpsStageState) :
    LammpsStageState :=
  { st with
    last_lammpstrj_file := some (toString st.stage_nbr ++ "." ++
      toString st.substage_nbr ++ "_npt.lammpstrj"),
    last_instantaneous_file := some (toString st.stage_nbr ++ "." ++
      toString st.substage_nbr ++ "_npt_instantaneous.out"),
    script := st.script ++ standard_npt_stage_lines p st,
    dict_of_variables := (add_custom_change_box_vars "3" p.boxdims_changeto
        p.set_cubic).foldl (fun d kv => dictSet d kv.1 kv.2)
      st.dict_of_variables,
    substage_nbr := st.substage_nbr + 1 }

/-- `StandardNveStage.run`: appended script elements. -/
def standard_nve_stage_lines (p : NveParams) (st : LammpsStageState) :
    List ScriptLine :=
  (match p.set_timestep with
   | some v => [add_set_timestep (toString v)]
   | none => []) ++
  [add_substage_title (st.stage_nbr, st.substage_nbr) "NVE-dynamics"
      ("Run " ++ toString p.nrun ++ " steps with a timestep of " ++
        toString p.timestep ++ "."),
   add_thermo_style "custom" list_thermo_style_mda,
   add_fix_nve "1" "all" (toString p.nreset) ["mtk yes"],
   add_fix_ave_time "2" "all" (toString p.nevery) (toString p.nrepeat)
     (toString p.nfreq) std_list_avetime_properties_mda
     (toString st.stage_nbr ++ "." ++ toString st.substage_nbr ++
       "_nve_instantaneous.out"),
   add_dump "1" "all" "custom" (toString p.ndump)
     (toString st.stage_nbr ++ "." ++ toString st.substage_nbr ++
       "_nve.lammpstrj") std_list_dump_properties,
   add_timestep (toString p.timestep),
   add_run_command (toString p.nrun),
   add_unfix "1", add_unfix "2", add_undump "1"]

/-- `LammpsStages.standard_nve_stage`. -/
def standard_nve_stage (p : NveParams) (st : LammpsStageState) :
    LammpsStageState :=
  { st with
    last_lammpstrj_file := some (toString st.stage_nbr ++ "." ++
      toString st.substage_nbr ++ "_nve.lammpstrj"),
    last_instantaneous_file := some (toString st.stage_nbr ++ "." ++
      toString st.substage_nbr ++ "_nve_instantaneous.out"),
    script := st.script ++ standard_nve_stage_lines p st,
    substage_nbr := st.substage_nbr + 1 }

/-- Python `str.lower()` on one character (ASCII range, which covers every
strain-style string the GUI produces). -/
def pyLowerChar (c : Char) : Char :=
  if 'A' ≤ c ∧ c ≤ 'Z' then Char.ofNat (c.toNat + 32) else c

/-- Python `str.lower()`. -/
def pyLower (s : String) : String := String.mk (s.toList.map pyLowerChar)

/-- `StandardDeformationStage.preprocess_gui_inputs_into_readable_inputs`:
a style whose lower-case form contains "true" is silently coerced to `"t"`;
every other style value is left as it is — nothing is rejected. -/
def preprocess_strain_style (strain_style : String) : String :=
  if containsSubChars "true".toList (pyLower strain_style).toList then "t"
  else strain_style

/-- `next(char for char in "xyz" if char != comp_axis)`. -/
def deformation_final_dim (comp_axis : String) : String :=
  if comp_axis == "x" then "y" else "x"

/-- `StandardDeformationStage.run`: appended script elements (custom code
lines are given by their whitespace tokens; the compression axis is a single
token, `"x"`, `"y"` or `"z"`, in every caller). -/
def standard_uniaxial_deformation_stage_lines (p : DeformationParams)
    (st : LammpsStageState) : List ScriptLine :=
  let style := preprocess_strain_style p.strain_style
  let fd := deformation_final_dim p.comp_axis
  (match p.set_timestep with
   | some v => [add_set_timestep (toString v)]
   | none => []) ++
  [add_substage_title (st.stage_nbr, st.substage_nbr)
      "Uniaxial compression dynamics"
      ("Uniaxial compression in the " ++ p.comp_axis ++ " axis for " ++
        toString p.nrun ++ " steps with a timestep of " ++
        toString p.timestep ++ ". Temperature control from " ++
        toString p.temp_initial ++ " to " ++ toString p.temp_final ++
        " K. Deformation applied every " ++ toString p.ndeformation ++
        " steps, with an " ++ style ++ " strain equal to: XX)"),
   add_variable "strainrate" "equal"
     ("ln((l" ++ fd ++ "+" ++ toString (2 * p.wallskin) ++ ")/l" ++
       p.comp_axis ++ ")/" ++ toString (p.timestep * (p.nrun : ℚ))),
   add_variable "strainrateconst" "equal" "${strainrate}",
   add_thermo_style "custom" list_thermo_style_mda,
   add_fix_nvt "1" "all" (toString p.temp_initial) (toString p.temp_final)
     (toString p.temp_ncontrol) (toString p.drag) (toString p.nreset)
     ["mtk yes"],
   add_fix_ave_time "2" "all" (toString p.nevery) (toString p.nrepeat)
     (toString p.nfreq) std_list_avetime_properties_mda
     (toString st.stage_nbr ++ "." ++ toString st.substage_nbr ++
       "_uniaxialcompression_instantaneous.out"),
   add_variable ("w" ++ p.comp_axis ++ "high") "equal"
     ("\"v_" ++ p.comp_axis ++ "hi - " ++ toString p.wallskin ++ "\""),
   add_variable ("w" ++ p.comp_axis ++ "low") "equal"
     ("\"v_" ++ p.comp_axis ++ "lo + " ++ toString p.wallskin ++ "\""),
   .cmd ["fix", "upperW", "all", "indent", "10", "plane", p.comp_axis,
     "v_w" ++ p.comp_axis ++ "high", "hi", "units", "box"],
   .cmd ["fix", "lowerW", "all", "indent", "10", "plane", p.comp_axis,
     "v_w" ++ p.comp_axis ++ "low", "lo", "units", "box"],
   .cmd ["fix", "dfrm", "all", "deform", toString p.ndeformation, p.comp_axis,
     style ++ "rate", "${strainrate}", "units", "box", "remap", "x"],
   add_dump "1" "all" "custom" (toString p.ndump)
     (toString st.stage_nbr ++ "." ++ toString st.substage_nbr ++
       "_uniaxialcompression.lammpstrj") std_list_dump_properties,
   add_timestep (toString p.timestep),
   add_run_command (toString p.nrun)] ++
  ["1", "2", "upperW", "lowerW", "dfrm"].map add_unfix ++
  [add_undump "1"]

/-- `LammpsStages.standard_uniaxial_deformation_stage`. -/
def standard_uniaxial_deformation_stage (p : DeformationParams)
    (st : LammpsStageState) : LammpsStageState :=
  let fd := deformation_final_dim p.comp_axis
  { st with
    last_lammpstrj_file := some (toString st.stage_nbr ++ "." ++
      toString st.substage_nbr ++ "_uniaxialcompression.lammpstrj"),
    last_instantaneous_file := some (toString st.stage_nbr ++ "." ++
      toString st.substage_nbr ++ "_uniaxialcompression_instantaneous.out"),
    script := st.script ++ standard_uniaxial_deformation_stage_lines p st,
    dict_of_variables :=
      (([("strainrate",
          "ln((l" ++ fd ++ "+" ++ toString (2 * p.wallskin) ++ ")/l" ++
            p.comp_axis ++ ")/" ++ toString (p.timestep * (p.nrun : ℚ))),
         ("strainrateconst", "${strainrate}"),
         ("w" ++ p.comp_axis ++ "high",
          "\"v_" ++ p.comp_axis ++ "hi - " ++ toString p.wallskin ++ "\""),
         ("w" ++ p.comp_axis ++ "low",
          "\"v_" ++ p.comp_axis ++ "lo + " ++ toString p.wallskin ++ "\"")] :
        List (String × String)).foldl (fun d kv => dictSet d kv.1 kv.2)
        st.dict_of_variables),
    substage_nbr := st.substage_nbr + 1 }

/-! ## Trajectory parsing and the round-trip writer — claim C9

`parse_trajectory`/`parse_header` (`backend/lammps_functions.py`) read a
frame block's header and data lines, converting each per-atom token with
`float(value)` and demoting whole-valued results with `int(...)`.  The
numeric values in a dump file are decimal literals; they are embedded
exactly over `ℚ` (idealizing IEEE floats, whose rounding the claim's
"up to numeric formatting" reading sets aside).  The file writer is the
external LAMMPS process, absent from the repository, so the rendering side
is modelled from the spec (§6). -/

/-- A numeric value in a trajectory table: an integer, or a decimal written
with exactly `d` fractional digits (value `m / 10^d`). -/
inductive DumpVal where
  | ival (n : ℤ)
  | fval (m : ℤ) (d : ℕ)
deriving DecidableEq, Repr

/-- The exact rational value of a table entry. -/
def qOf : DumpVal → ℚ
  | .ival n => (n : ℚ)
  | .fval m d => (m : ℚ) / 10 ^ d

/-- A Python number as produced by the parser's float-then-int demotion. -/
inductive PyNum where
  | pint (n : ℤ)
  | pfloat (q : ℚ)
deriving DecidableEq, Repr

/-- Big-endian decimal digit characters of a natural number (empty for 0). -/
def natDigitChars (n : ℕ) : List Char :=
  (Nat.digits 10 n).reverse.map digitChar10

/-- Python `str(n)` for a natural number. -/
def renderNatChars (n : ℕ) : List Char :=
  if n = 0 then ['0'] else natDigitChars n

/-- A run of exactly `d` digit characters with value `k` (left-padded with
zeros; well-formed uses have `k < 10^d`). -/
def padDigits (d k : ℕ) : List Char :=
  List.replicate (d - (natDigitChars k).length) '0' ++ natDigitChars k

/-- The characters of a rendered table entry: integers as in Python
`str(int)`, decimals as sign, integer part, `'.'`, and exactly `d`
fractional digits. -/
def renderValChars : DumpVal → List Char
  | .ival n => (if n < 0 then ['-'] else []) ++ renderNatChars n.natAbs
  | .fval m d =>
      (if m < 0 then ['-'] else []) ++ renderNatChars (m.natAbs / 10 ^ d) ++
        '.' :: padDigits d (m.natAbs % 10 ^ d)

def renderVal (v : DumpVal) : String := String.mk (renderValChars v)

/-- Python `" ".join(...)` at the character level. -/
def joinSpaceChars : List (List Char) → List Char
  | [] => []
  | [t] => t
  | t :: rest => t ++ ' ' :: joinSpaceChars rest

/-- Python `" ".join(...)`. -/
def joinSpace (toks : List String) : String :=
  String.mk (joinSpaceChars (toks.map String.toList))

/-- A non-empty, whitespace-free string: exactly one `str.split()` field. -/
def isSingleToken (s : String) : Bool :=
  !s.toList.isEmpty && s.toList.all (fun c => !c.isWhitespace)

/-- Python `float(value)` on an unsigned decimal literal (digits with an
optional decimal point; exponent forms never occur in a dump table). -/
def pyFloatAbs (cs : List Char) : Option ℚ :=
  let ip := cs.takeWhile (fun c => c != '.')
  let rest := cs.dropWhile (fun c => c != '.')
  match rest with
  | [] =>
      if ip ≠ [] ∧ ip.all Char.isDigit then some ((digitsToNat ip : ℚ))
      else none
  | _ :: fp =>
      if (ip ++ fp) ≠ [] ∧ ip.all Char.isDigit ∧ fp.all Char.isDigit then
        some ((digitsToNat ip : ℚ) + (digitsToNat fp : ℚ) / 10 ^ fp.length)
      else none

/-- Python `float(value)` on a decimal literal with optional leading minus. -/
def pyFloat (s : String) : Option ℚ :=
  match s.toList with
  | [] => none
  | c :: cs =>
      if c == '-' then (pyFloatAbs cs).map Neg.neg else pyFloatAbs (c :: cs)

/-- Python `int(value)` on an integer literal with optional leading minus. -/
def pyInt (s : String) : Option ℤ :=
  match s.toList with
  | [] => none
  | c :: cs =>
      if c == '-' then
        (if cs ≠ [] ∧ cs.all Char.isDigit then some (-(digitsToNat cs : ℤ))
         else none)
      else if (c :: cs).all Char.isDigit then some ((digitsToNat (c :: cs) : ℤ))
      else none

/-- The parser's value conversion: `float(value)` followed by the
`is_integer()` demotion to `int`. -/
def pyNumOfToken (s : String) : Option PyNum :=
  (pyFloat s).map fun q => if q.den = 1 then .pint q.num else .pfloat q

/-- Python `trajectory_data[attr].append(value)` on the insertion-ordered
dict (the key is always present: the dict was initialised from the same
attribute list the loop zips over). -/
def dictAppend (d : List (String × List PyNum)) (k : String) (v : PyNum) :
    List (String × List PyNum) :=
  match d with
  | [] => []
  | (k1, vs) :: rest =>
      if k1 == k then (k1, vs ++ [v]) :: rest
      else (k1, vs) :: dictAppend rest k v

/-- The data loop of `parse_trajectory`: initialise `{attr: []}`, then for
each line zip the attributes with the split fields, converting each field
and appending it, or raise on a non-numeric field. -/
def parse_trajectory_data (attributes : List String) (data : List String) :
    Except String (List (String × List PyNum)) :=
  data.foldlM
    (fun dict line =>
      (attributes.zip (pyTokens line)).foldlM
        (fun d av =>
          match pyNumOfToken av.2 with
          | some v => .ok (dictAppend d av.1 v)
          | none => .error ("Value " ++ av.2 ++ " from attribute " ++ av.1 ++
              " could not be converted into a number."))
        dict)
    (attributes.map fun a => (a, []))

/-- `pyGet` with the error rendered as a message, as the uncaught Python
exception would be. -/
def pyGetE {α : Type} (l : List α) (i : ℤ) : Except String α :=
  match pyGet l i with
  | .ok a => .ok a
  | .error _ => .error "IndexError"

def ofOption {α : Type} (e : String) : Option α → Except String α
  | some a => .ok a
  | none => .error e

structure HeaderInfo where
  timestep : ℤ
  nbr_of_atoms : ℤ
  box_bounds : List String
  box_dims : List ℚ
  attributes : List String
deriving DecidableEq, Repr

/-- `parse_header`: timestep from line 1, atom count from line 3, box-bounds
tags from line 4 (fields from index 3 on), box dimensions from lines 5–7
(every field converted with `float`), attribute names from line 8 (fields
from index 2 on). -/
def parse_header (header : List String) : Except String HeaderInfo := do
  let l1 ← pyGetE header 1
  let timestep ← ofOption "invalid literal for int()" (pyInt l1)
  let l3 ← pyGetE header 3
  let nbr_of_atoms ← ofOption "invalid literal for int()" (pyInt l3)
  let l4 ← pyGetE header 4
  let box_bounds := (pyTokens l4).drop 3
  let dims_lines := (header.drop 5).take 3
  let box_dims ← dims_lines.foldlM
    (fun acc line => do
      let vals ← (pyTokens line).mapM
        (fun v => ofOption "could not convert string to float" (pyFloat v))
      pure (acc ++ vals))
    ([] : List ℚ)
  let l8 ← pyGetE header 8
  pure ⟨timestep, nbr_of_atoms, box_bounds, box_dims, (pyTokens l8).drop 2⟩

/-- `parse_trajectory`: attribute names from the last header line (fields
from index 2 on), then the data loop, then the header parse (evaluated at
the return statement). -/
def parse_trajectory (header data : List String) :
    Except String (HeaderInfo × List (String × List PyNum)) := do
  let lastLine ← pyGetE header (-1)
  let attributes := (pyTokens lastLine).drop 2
  let tdata ← parse_trajectory_data attributes data
  let hinfo ← parse_header header
  pure (hinfo, tdata)

/-- A well-formed trajectory frame to be written and re-read. -/
structure DumpFrame where
  timestep : ℤ
  boxBoundsTag : String
  boxDims : List (DumpVal × DumpVal)
  attributes : List String
  rows : List (List DumpVal)

/-- Modelled from the spec: the repository contains no trajectory writer —
frames are produced by the external LAMMPS process — so rendering follows
§6's frame format: marker, integer timestep, marker, integer atom count,
marker with boundary tags, three box-bound pairs, marker with the attribute
names, then one space-separated line of values per atom in declared
attribute order. -/
def renderFrame (f : DumpFrame) : List String :=
  ["ITEM: TIMESTEP",
   renderVal (.ival f.timestep),
   "ITEM: NUMBER OF ATOMS",
   renderVal (.ival (f.rows.length : ℤ)),
   "ITEM: BOX BOUNDS " ++ f.boxBoundsTag] ++
  f.boxDims.map (fun ab => joinSpace [renderVal ab.1, renderVal ab.2]) ++
  [joinSpace ("ITEM:" :: "ATOMS" :: f.attributes)] ++
  f.rows.map (fun r => joinSpace (r.map renderVal))

/-- The float-then-int demotion applied directly to a table value (what the
round trip preserves: whole-valued decimals re-read as integers, everything
else unchanged). -/
def demote (v : DumpVal) : PyNum :=
  match v with
  | .ival n => .pint n
  | .fval m d =>
      if ((m : ℚ) / 10 ^ d).den = 1 then .pint ((m : ℚ) / 10 ^ d).num
      else .pfloat ((m : ℚ) / 10 ^ d)

/-- The attribute-value table of a frame as the parser's dict lays it out:
one `(attribute, demoted column)` pair per attribute, in declared order. -/
def tableOf : List String → List (List DumpVal) → List (String × List PyNum)
  | [], _ => []
  | a :: as, rows =>
      (a, rows.map (fun r => demote (r.headD (.ival 0)))) ::
        tableOf as (rows.map (fun r => r.tail))

/-! ## OverlapEnergyEvaluator — `scymol/backend/backend_static_functions.py`

`lennard_jones_potential`, `compute_distance` and
`compute_total_lj_potential` work on NumPy floats; they are embedded over
`ℝ` (exact real arithmetic stands in for floating point, as the spec's
"within floating tolerance" reading intends).  `np.round` rounds halves to
the nearest even integer, embedded as `rne`. -/

/-- NumPy `np.round` (round half to even) as an integer-valued function. -/
noncomputable def rne (x : ℝ) : ℤ :=
  if Int.fract x < 1 / 2 then ⌊x⌋
  else if 1 / 2 < Int.fract x then ⌊x⌋ + 1
  else if ⌊x⌋ % 2 = 0 then ⌊x⌋ else ⌊x⌋ + 1

/-- One axis of the minimum-image wrapping `d - L * np.round(d / L)`. -/
noncomputable def minImage (d L : ℝ) : ℝ := d - L * (rne (d / L) : ℝ)

/-- `lennard_jones_potential(rij, epsilon, sigma)` (the source defaults both
parameters to 1). -/
noncomputable def lennard_jones_potential (rij epsilon sigma : ℝ) : ℝ :=
  4 * epsilon * ((sigma / rij) ^ 12 - (sigma / rij) ^ 6)

/-- `compute_distance(x1, y1, z1, x2, y2, z2, box_dimensions)`: Euclidean
distance after per-axis minimum-image wrapping. -/
noncomputable def compute_distance (x1 y1 z1 x2 y2 z2 : ℝ)
    (box_dimensions : ℝ × ℝ × ℝ) : ℝ :=
  let dx := minImage (x1 - x2) box_dimensions.1
  let dy := minImage (y1 - y2) box_dimensions.2.1
  let dz := minImage (z1 - z2) box_dimensions.2.2
  Real.sqrt (dx ^ 2 + dy ^ 2 + dz ^ 2)

/-- `compute_total_lj_potential(x, y, z, box_dimensions, rcut)`: the nested
loops `for i in prange(n): for j in prange(i+1, n):` accumulating
`lennard_jones_potential(r)` whenever `r < rcut` (out-of-range indexing of
ragged coordinate arrays is an error in the source; `getD` keeps the
embedding total, and both sides of the claims index identically). -/
noncomputable def compute_total_lj_potential (x y z : List ℝ)
    (box_dimensions : ℝ × ℝ × ℝ) (rcut : ℝ) : ℝ :=
  (List.range x.length).foldl
    (fun acc i =>
      ((List.range x.length).drop (i + 1)).foldl
        (fun acc2 j =>
          let r := compute_distance (x.getD i 0) (y.getD i 0) (z.getD i 0)
            (x.getD j 0) (y.getD j 0) (z.getD j 0) box_dimensions
          if r < rcut then acc2 + lennard_jones_potential r 1 1 else acc2)
        acc)
    0

/-- Written from the spec's words: the sum of the 12-6 pair potential
`4·ε·((σ/r)^12 − (σ/r)^6)` with `ε = σ = 1` over all unique unordered
particle pairs whose minimum-image wrapped distance is strictly below the
cutoff; pairs at or beyond the cutoff contribute zero. -/
noncomputable def total_potential_spec (x y z : List ℝ)
    (box_dimensions : ℝ × ℝ × ℝ) (rcut : ℝ) : ℝ :=
  ∑ p ∈ (Finset.range x.length ×ˢ Finset.range x.length).filter
      (fun p => p.1 < p.2),
    (if compute_distance (x.getD p.1 0) (y.getD p.1 0) (z.getD p.1 0)
          (x.getD p.2 0) (y.getD p.2 0) (z.getD p.2 0) box_dimensions < rcut
     then 4 * 1 *
       ((1 / compute_distance (x.getD p.1 0) (y.getD p.1 0) (z.getD p.1 0)
           (x.getD p.2 0) (y.getD p.2 0) (z.getD p.2 0) box_dimensions) ^ 12 -
        (1 / compute_distance (x.getD p.1 0) (y.getD p.1 0) (z.getD p.1 0)
           (x.getD p.2 0) (y.getD p.2 0) (z.getD p.2 0) box_dimensions) ^ 6)
     else 0)

/-- `calculate_strain_rate` from `backend/lammps_functions.py`: the `'t'`
(true/logarithmic strain) branch returns
`log((dim_final + 2·wallskin) / dim_initial) / telapsed`; every other style
falls off the end of the function, i.e. returns Python `None`. -/
noncomputable def calculate_strain_rate (dim_initial dim_final : ℝ)
    (strain_style : String) (telapsed wallskin : ℝ) : Option ℝ :=
  if strain_style = "t" then
    some (Real.log ((dim_final + 2 * wallskin) / dim_initial) / telapsed)
  else none

/-! ## The teardown predicate (claim C4)

A command element whose first token is `fix` (`dump`) is an enable directive
with identifier in the second token; the matching disable is a later `unfix`
(`undump`) element naming the same identifier. -/

/-- Whether a script element is `unfix <id>`. -/
def isUnfixOf (id : String) : ScriptLine → Bool
  | .cmd ["unfix", id2] => id2 == id
  | _ => false

/-- Whether a script element is `undump <id>`. -/
def isUndumpOf (id : String) : ScriptLine → Bool
  | .cmd ["undump", id2] => id2 == id
  | _ => false

/-- Whether a later `unfix` with the given identifier occurs in `rest`. -/
def hasLaterUnfix (rest : List ScriptLine) (id : String) : Bool :=
  rest.any (isUnfixOf id)

/-- Whether a later `undump` with the given identifier occurs in `rest`. -/
def hasLaterUndump (rest : List ScriptLine) (id : String) : Bool :=
  rest.any (isUndumpOf id)

/-- Every `fix`/`dump` element is followed, later in the list, by a matching
`unfix`/`undump` element. -/
def teardownOk : List ScriptLine → Bool
  | [] => true
  | c :: rest =>
      (match c with
       | .cmd ("fix" :: id :: _) => hasLaterUnfix rest id
       | .cmd ("dump" :: id :: _) => hasLaterUndump rest id
       | _ => true) && teardownOk rest

end Scymol

namespace Scymol

/-! # Theorems -/

/-- Claim C7: with files `1.1_...`, `1.2_...`, `2.1_...` present and
`list_of_progress = [[1,2],[1]]`, `calculate_progress` returns `(3, 3)`
(100 %); and on an empty directory it returns zero progress, not an error. -/
theorem c7_calculate_progress_example :
    calculate_progress
        ["1.1_initialization", "1.2_minimization.lammpstrj", "2.1_nvt.lammpstrj"]
        [[1, 2], [1]] = .ok (3, 3) ∧
      calculate_progress [] [[1, 2], [1]] = .ok (0, 3) := by
  constructor <;> rfl

/-- Helper: the backward scan collects exactly the lines after the last
marker line, the marker included, when no later line contains the marker. -/
theorem scanBack_append (a : List String) (m : String) (b : List String)
    (hm : containsTimestepMarker m = true)
    (ha : ∀ l ∈ a, containsTimestepMarker l = false) :
    scanBackUntilMarker (a ++ m :: b) = a ++ [m] := by
  induction a with
  | nil => simp [scanBackUntilMarker, hm]
  | cons x xs ih =>
      have hx := ha x (by simp)
      simp only [List.cons_append, scanBackUntilMarker, hx, Bool.false_eq_true,
        if_false]
      simp [ih (fun l hl => ha l (by simp [hl]))]

/-- Claim C1 (amended): for a well-formed dump file whose final frame block
starts at the last line containing the timestep marker (the scan stops at the
first such line met when reading backward from the end, not the second),
`get_last_trajectory` returns that block split as 9 header lines plus data
lines, and `write_last_trajectory` writes exactly the block with the timestep
header field (line index 1) replaced by `"0"`. -/
theorem c1_write_last_trajectory (pre : List String) (marker : String)
    (rest : List String)
    (hm : containsTimestepMarker marker = true)
    (hr : ∀ l ∈ rest, containsTimestepMarker l = false) :
    get_last_trajectory (pre ++ marker :: rest) =
      ((marker :: rest).take 9, (marker :: rest).drop 9) ∧
    write_last_trajectory (pre ++ marker :: rest) =
      String.intercalate "\n" ((marker :: rest).set 1 "0") := by
  have hrev : (pre ++ marker :: rest).reverse = rest.reverse ++ marker :: pre.reverse := by
    simp
  have hscan :
      scanBackUntilMarker (pre ++ marker :: rest).reverse = rest.reverse ++ [marker] := by
    rw [hrev]
    exact scanBack_append _ _ _ hm (fun l hl => hr l (by simpa using hl))
  have hget : get_last_trajectory (pre ++ marker :: rest) =
      ((marker :: rest).take 9, (marker :: rest).drop 9) := by
    unfold get_last_trajectory
    rw [hscan]
    simp
  refine ⟨hget, ?_⟩
  unfold write_last_trajectory
  rw [hget]
  cases rest with
  | nil => rfl
  | cons r rs =>
      simp only [List.take_succ_cons, List.drop_succ_cons, List.set_cons_succ,
        List.set_cons_zero, List.cons_append]
      simp [List.take_append_drop]

/-- Claim C1 witness: the amended theorem applied to the concrete two-frame
dump file. -/
theorem c1_write_last_trajectory_witness :
    containsTimestepMarker "ITEM: TIMESTEP" = true ∧
    (∀ l ∈ ["100", "ITEM: NUMBER OF ATOMS", "1", "ITEM: BOX BOUNDS pp pp pp",
        "0 10", "0 10", "0 10", "ITEM: ATOMS id x y z", "1 0.7 0.7 0.7"],
      containsTimestepMarker l = false) ∧
    get_last_trajectory twoFrameDump =
      (("ITEM: TIMESTEP" :: ["100", "ITEM: NUMBER OF ATOMS", "1",
          "ITEM: BOX BOUNDS pp pp pp", "0 10", "0 10", "0 10",
          "ITEM: ATOMS id x y z", "1 0.7 0.7 0.7"]).take 9,
        ("ITEM: TIMESTEP" :: ["100", "ITEM: NUMBER OF ATOMS", "1",
          "ITEM: BOX BOUNDS pp pp pp", "0 10", "0 10", "0 10",
          "ITEM: ATOMS id x y z", "1 0.7 0.7 0.7"]).drop 9) := by
  refine ⟨by decide, by decide, ?_⟩
  exact (c1_write_last_trajectory
    ["ITEM: TIMESTEP", "0", "ITEM: NUMBER OF ATOMS", "1",
     "ITEM: BOX BOUNDS pp pp pp", "0 10", "0 10", "0 10",
     "ITEM: ATOMS id x y z", "1 0.5 0.5 0.5"]
    "ITEM: TIMESTEP"
    ["100", "ITEM: NUMBER OF ATOMS", "1", "ITEM: BOX BOUNDS pp pp pp",
     "0 10", "0 10", "0 10", "ITEM: ATOMS id x y z", "1 0.7 0.7 0.7"]
    (by decide) (by decide)).1

/-- Claim C1 counterexample: the source scan stops at the first backward
occurrence of the timestep marker; a scan running to the second occurrence
(the claim's wording) produces a different split on a two-frame file. -/
theorem c1_counterexample :
    get_last_trajectory twoFrameDump =
      (["ITEM: TIMESTEP", "100", "ITEM: NUMBER OF ATOMS", "1",
        "ITEM: BOX BOUNDS pp pp pp", "0 10", "0 10", "0 10",
        "ITEM: ATOMS id x y z"], ["1 0.7 0.7 0.7"]) ∧
    get_last_trajectory_secondOcc twoFrameDump ≠ get_last_trajectory twoFrameDump := by
  exact ⟨rfl, by decide⟩

/-- Claim C2: exhausting the trial budget (here 1 trial, mixture always
rejected) before reaching the required accepted-mixture count (here 1) makes
`run_trials` end its loop and return normally — zero mixtures accepted, no
stage executed, and no error of any kind surfaced (the caller `run()` then
logs "Program run terminated successfully").  The claim's required explicit,
distinguishable failure does not exist in the code. -/
theorem c2_run_trials_silent_exhaustion :
    run_trials 1 1 "mixture+pysimm+lammps" (fun _ => false) 5
        initialRunTrialsState =
      some { trial_i := 2, nbr_of_mixtures_accepted := 0,
             mixtures_generated := 1, stages_executed := [] } := by
  rfl

/-- Helper: an `unfix` search distributes over list append. -/
theorem hasLaterUnfix_append (a b : List ScriptLine) (id : String) :
    hasLaterUnfix (a ++ b) id = (hasLaterUnfix a id || hasLaterUnfix b id) := by
  simp [hasLaterUnfix, List.any_append]

/-- Helper: an `undump` search distributes over list append. -/
theorem hasLaterUndump_append (a b : List ScriptLine) (id : String) :
    hasLaterUndump (a ++ b) id = (hasLaterUndump a id || hasLaterUndump b id) := by
  simp [hasLaterUndump, List.any_append]

/-- Helper: the box-resizing block contains no `unfix` element. -/
theorem anyUnfix_changeBox (f s : String) (c : Bool) (id : String) :
    (add_custom_change_box f s c).any (isUnfixOf id) = false := by
  unfold add_custom_change_box add_change_box
  split_ifs <;> rfl

/-- Helper: the box-resizing block contains no `undump` element. -/
theorem anyUndump_changeBox (f s : String) (c : Bool) (id : String) :
    (add_custom_change_box f s c).any (isUndumpOf id) = false := by
  unfold add_custom_change_box add_change_box
  split_ifs <;> rfl

/-- Helper: the box-resizing block contains no `fix` or `dump` element, so
the teardown predicate passes through it. -/
theorem teardownOk_append_changeBox (f s : String) (c : Bool)
    (post : List ScriptLine) :
    teardownOk (add_custom_change_box f s c ++ post) = teardownOk post := by
  unfold add_custom_change_box add_change_box
  split_ifs <;> simp [teardownOk, add_variable, add_comment]

/-- Helper: a run of `variable` elements contains no `fix` or `dump`
element, so the teardown predicate passes through it. -/
theorem teardownOk_append_vars (vars : List (String × String))
    (post : List ScriptLine) :
    teardownOk (vars.map (fun kv => add_variable kv.1 "equal" kv.2) ++ post) =
      teardownOk post := by
  induction vars with
  | nil => rfl
  | cons kv rest ih => simpa [teardownOk, add_variable] using ih

/-- Claim C3 (amended): only the dynamics builders — NVT, NPT, NVE and
uniaxial deformation — update the owning stage's
`last_lammpstrj_file`/`last_instantaneous_file` pointers, setting them to the
just-completed substage's output file names.  The minimization builder keeps
its trajectory name on the substage object and leaves the stage pointers
unchanged, and the initialization and velocity-seeding builders (which
produce no output files) leave them unchanged as well. -/
theorem c3_last_file_pointers :
    (∀ (p : NvtParams) (st : LammpsStageState),
      (standard_nvt_stage p st).last_lammpstrj_file =
        some (toString st.stage_nbr ++ "." ++ toString st.substage_nbr ++
          "_nvt.lammpstrj") ∧
      (standard_nvt_stage p st).last_instantaneous_file =
        some (toString st.stage_nbr ++ "." ++ toString st.substage_nbr ++
          "_nvt_instantaneous.out")) ∧
    (∀ (p : NptParams) (st : LammpsStageState),
      (standard_npt_stage p st).last_lammpstrj_file =
        some (toString st.stage_nbr ++ "." ++ toString st.substage_nbr ++
          "_npt.lammpstrj") ∧
      (standard_npt_stage p st).last_instantaneous_file =
        some (toString st.stage_nbr ++ "." ++ toString st.substage_nbr ++
          "_npt_instantaneous.out")) ∧
    (∀ (p : NveParams) (st : LammpsStageState),
      (standard_nve_stage p st).last_lammpstrj_file =
        some (toString st.stage_nbr ++ "." ++ toString st.substage_nbr ++
          "_nve.lammpstrj") ∧
      (standard_nve_stage p st).last_instantaneous_file =
        some (toString st.stage_nbr ++ "." ++ toString st.substage_nbr ++
          "_nve_instantaneous.out")) ∧
    (∀ (p : DeformationParams) (st : LammpsStageState),
      (standard_uniaxial_deformation_stage p st).last_lammpstrj_file =
        some (toString st.stage_nbr ++ "." ++ toString st.substage_nbr ++
          "_uniaxialcompression.lammpstrj") ∧
      (standard_uniaxial_deformation_stage p st).last_instantaneous_file =
        some (toString st.stage_nbr ++ "." ++ toString st.substage_nbr ++
          "_uniaxialcompression_instantaneous.out")) ∧
    (∀ (p : MinimizationParams) (st : LammpsStageState),
      (standard_minimization_substage p st).last_lammpstrj_file =
        st.last_lammpstrj_file ∧
      (standard_minimization_substage p st).last_instantaneous_file =
        st.last_instantaneous_file) ∧
    (∀ (p : VelocitiesParams) (st : LammpsStageState),
      (standard_velocities_stage p st).last_lammpstrj_file =
        st.last_lammpstrj_file ∧
      (standard_velocities_stage p st).last_instantaneous_file =
        st.last_instantaneous_file) ∧
    (∀ (p : InitializationParams) (st : LammpsStageState),
      (standard_initialization_substage p st).map
          (fun s => (s.last_lammpstrj_file, s.last_instantaneous_file)) =
        (standard_initialization_substage p st).map
          (fun _ => (st.last_lammpstrj_file, st.last_instantaneous_file))) := by
  refine ⟨fun p st => ⟨rfl, rfl⟩, fun p st => ⟨rfl, rfl⟩, fun p st => ⟨rfl, rfl⟩,
    fun p st => ⟨rfl, rfl⟩, fun p st => ⟨rfl, rfl⟩, fun p st => ⟨rfl, rfl⟩,
    fun p st => ?_⟩
  by_cases h : p.units_style ∈ valid_unit_styles <;>
    simp [standard_initialization_substage,
      standard_initialization_substage_lines, h, Except.map]

/-- Claim C3 counterexample: running the minimization builder on a fresh
stage appends a dump command producing `1.1_minimization.lammpstrj`, yet the
stage's last-trajectory/instantaneous pointers do not name that output — they
stay as they were (here unset). -/
theorem c3_counterexample :
    ((standard_minimization_substage {} (initLammpsStage 1)).script.contains
        (add_dump "minrun" "all" "custom" "1000" "1.1_minimization.lammpstrj"
          std_list_dump_properties) = true) ∧
    (standard_minimization_substage {} (initLammpsStage 1)).last_lammpstrj_file
        = none ∧
    (standard_minimization_substage {}
        (initLammpsStage 1)).last_instantaneous_file = none := by
  refine ⟨by decide, rfl, rfl⟩

/-- Claim C4: every stage builder appends only `fix`/`dump` directives that a
later `unfix`/`undump` with the same identifier disables within the same
stage's command list, the appended block is a function of the pre-increment
state (`script' = script ++ lines(st)`), and the shared substage counter
increases by exactly 1 per builder invocation. -/
theorem c4_teardown_and_counter :
    (∀ (p : NvtParams) (st : LammpsStageState),
      teardownOk (standard_nvt_stage_lines p st) = true ∧
      (standard_nvt_stage p st).script =
        st.script ++ standard_nvt_stage_lines p st ∧
      (standard_nvt_stage p st).substage_nbr = st.substage_nbr + 1) ∧
    (∀ (p : NptParams) (st : LammpsStageState),
      teardownOk (standard_npt_stage_lines p st) = true ∧
      (standard_npt_stage p st).script =
        st.script ++ standard_npt_stage_lines p st ∧
      (standard_npt_stage p st).substage_nbr = st.substage_nbr + 1) ∧
    (∀ (p : NveParams) (st : LammpsStageState),
      teardownOk (standard_nve_stage_lines p st) = true ∧
      (standard_nve_stage p st).script =
        st.script ++ standard_nve_stage_lines p st ∧
      (standard_nve_stage p st).substage_nbr = st.substage_nbr + 1) ∧
    (∀ (p : DeformationParams) (st : LammpsStageState),
      teardownOk (standard_uniaxial_deformation_stage_lines p st) = true ∧
      (standard_uniaxial_deformation_stage p st).script =
        st.script ++ standard_uniaxial_deformation_stage_lines p st ∧
      (standard_uniaxial_deformation_stage p st).substage_nbr =
        st.substage_nbr + 1) ∧
    (∀ (p : MinimizationParams) (st : LammpsStageState),
      teardownOk (standard_minimization_substage_lines p st) = true ∧
      (standard_minimization_substage p st).script =
        st.script ++ standard_minimization_substage_lines p st ∧
      (standard_minimization_substage p st).substage_nbr =
        st.substage_nbr + 1) ∧
    (∀ (p : VelocitiesParams) (st : LammpsStageState),
      teardownOk (standard_velocities_stage_lines p st) = true ∧
      (standard_velocities_stage p st).script =
        st.script ++ standard_velocities_stage_lines p st ∧
      (standard_velocities_stage p st).substage_nbr = st.substage_nbr + 1) ∧
    (∀ (p : InitializationParams) (st : LammpsStageState),
      (standard_initialization_substage_lines p st).map teardownOk =
        (standard_initialization_substage_lines p st).map (fun _ => true) ∧
      (standard_initialization_substage p st).map (fun s => s.script) =
        (standard_initialization_substage_lines p st).map
          (fun lines => st.script ++ lines) ∧
      (standard_initialization_substage p st).map (fun s => s.substage_nbr) =
        (standard_initialization_substage p st).map
          (fun _ => st.substage_nbr + 1)) := by
  refine ⟨fun p st => ?_, fun p st => ?_, fun p st => ?_, fun p st => ?_,
    fun p st => ?_, fun p st => ?_, fun p st => ?_⟩
  · rcases h : p.set_timestep with _ | v <;>
      exact ⟨by simp only [standard_nvt_stage_lines, h]; rfl, rfl, rfl⟩
  · rcases h : p.set_timestep with _ | v <;>
      refine ⟨?_, rfl, rfl⟩ <;>
      · simp only [standard_npt_stage_lines, h, List.nil_append,
          List.cons_append, List.append_assoc]
        simp only [teardownOk, teardownOk_append_changeBox, hasLaterUnfix,
          hasLaterUndump, List.any_cons, List.any_append, List.any_nil,
          anyUnfix_changeBox, anyUndump_changeBox, add_substage_title,
          add_thermo_style, add_fix_npt, add_fix_ave_time, add_dump,
          add_timestep, add_run_command, add_unfix, add_undump,
          add_set_timestep, isUnfixOf, isUndumpOf, Bool.false_or,
          Bool.or_false, Bool.or_true, Bool.true_or, Bool.true_and,
          Bool.and_true]
        rfl
  · rcases h : p.set_timestep with _ | v <;>
      exact ⟨by simp only [standard_nve_stage_lines, h]; rfl, rfl, rfl⟩
  · rcases h : p.set_timestep with _ | v <;>
      exact ⟨by simp only [standard_uniaxial_deformation_stage_lines, h]; rfl,
        rfl, rfl⟩
  · rcases h : p.set_timestep with _ | v <;>
      exact ⟨by simp only [standard_minimization_substage_lines, h]; rfl,
        rfl, rfl⟩
  · exact ⟨rfl, rfl, rfl⟩
  · by_cases h : p.units_style ∈ valid_unit_styles <;>
      refine ⟨?_, ?_, ?_⟩ <;>
      simp [standard_initialization_substage,
        standard_initialization_substage_lines, h, teardownOk,
        teardownOk_append_vars, List.cons_append, Except.map,
        add_substage_title, add_units, add_boundary, add_atom_style,
        add_pair_style, add_pair_modify, add_bond_style, add_angle_style,
        add_dihedral_style, add_improper_style, add_special_bonds,
        add_read_data, add_comment, add_thermo_style, add_thermo_modify]

/-- Helper: a fold adding a conditional contribution per element equals the
start value plus the sum of the contributions. -/
theorem foldl_ite_add (c : ℕ → Prop) [DecidablePred c] (f : ℕ → ℝ)
    (l : List ℕ) : ∀ a : ℝ,
    l.foldl (fun acc j => if c j then acc + f j else acc) a =
      a + ((l.map fun j => if c j then f j else 0).sum) := by
  induction l with
  | nil => intro a; simp
  | cons hd tl ih => intro a; by_cases h : c hd <;> simp [h, ih, add_assoc]

/-- Helper: a fold adding a contribution per element equals the start value
plus the sum of the contributions. -/
theorem foldl_add_eq (f : ℕ → ℝ) (l : List ℕ) : ∀ a : ℝ,
    l.foldl (fun acc i => acc + f i) a = a + (l.map f).sum := by
  induction l with
  | nil => intro a; simp
  | cons hd tl ih => intro a; simp [ih, add_assoc]

/-- Helper: list-sum over `List.range` is the `Finset.range` sum. -/
theorem sum_map_range (g : ℕ → ℝ) (n : ℕ) :
    ((List.range n).map g).sum = ∑ i ∈ Finset.range n, g i := by
  induction n with
  | zero => simp
  | succ n ih => rw [List.range_succ]; simp [ih, Finset.sum_range_succ]

/-- Helper: list-sum over the tail `range n` past index `i` is the
`Finset.Ico (i+1) n` sum. -/
theorem sum_map_range_drop (g : ℕ → ℝ) (i : ℕ) : ∀ n : ℕ,
    (((List.range n).drop (i + 1)).map g).sum =
      ∑ j ∈ Finset.Ico (i + 1) n, g j := by
  intro n
  induction n with
  | zero => simp
  | succ n ih =>
      rw [List.range_succ, List.drop_append_eq_append_drop]
      by_cases h : i + 1 ≤ n
      · have h0 : i + 1 - (List.range n).length = 0 := by
          simp [List.length_range]; omega
        rw [h0, List.drop_zero, List.map_append, List.sum_append, ih,
          Finset.sum_Ico_succ_top h]
        simp
      · have hdrop : (List.range n).drop (i + 1) = [] := by
          apply List.drop_eq_nil_of_le
          simp [List.length_range]; omega
        have h2 : ([n].drop (i + 1 - (List.range n).length)) = [] := by
          apply List.drop_eq_nil_of_le
          simp [List.length_range]; omega
        rw [hdrop, h2]
        have hIco : Finset.Ico (i + 1) (n + 1) = ∅ :=
          Finset.Ico_eq_empty (by omega)
        simp [hIco]

/-- Helper: a sum over the strict-upper-triangle of a square index range,
written as a filtered product, equals the iterated row sums. -/
theorem sum_filter_product_eq (F : ℕ × ℕ → ℝ) (n : ℕ) :
    (∑ p ∈ (Finset.range n ×ˢ Finset.range n).filter (fun p => p.1 < p.2),
        F p) =
      ∑ i ∈ Finset.range n, ∑ j ∈ Finset.Ico (i + 1) n, F (i, j) := by
  rw [Finset.sum_filter, Finset.sum_product]
  refine Finset.sum_congr rfl (fun i _ => ?_)
  rw [← Finset.sum_filter]
  have hIco : (Finset.range n).filter (fun j => i < j) = Finset.Ico (i + 1) n := by
    ext j
    simp only [Finset.mem_filter, Finset.mem_range, Finset.mem_Ico]
    omega
  rw [hIco]

/-- Claim C5: `compute_total_lj_potential` equals the spec's sum of the 12-6
Lennard-Jones pair potential with `ε = σ = 1` over all unique unordered pairs
whose minimum-image wrapped distance is strictly below the cutoff (pairs at
or beyond the cutoff contributing zero), and on a single-particle input it is
exactly 0. -/
theorem c5_total_lj_potential :
    (∀ (x y z : List ℝ) (box : ℝ × ℝ × ℝ) (rcut : ℝ),
      compute_total_lj_potential x y z box rcut =
        total_potential_spec x y z box rcut) ∧
    (∀ (a b c : ℝ) (box : ℝ × ℝ × ℝ) (rcut : ℝ),
      compute_total_lj_potential [a] [b] [c] box rcut = 0) := by
  constructor
  · intro x y z box rcut
    set n := x.length with hn
    set dist : ℕ → ℕ → ℝ := fun i j =>
      compute_distance (x.getD i 0) (y.getD i 0) (z.getD i 0)
        (x.getD j 0) (y.getD j 0) (z.getD j 0) box with hdist
    have hinner : ∀ i : ℕ, ∀ acc : ℝ,
        ((List.range n).drop (i + 1)).foldl
          (fun acc2 j =>
            if dist i j < rcut then acc2 + lennard_jones_potential (dist i j) 1 1
            else acc2) acc =
          acc + ∑ j ∈ Finset.Ico (i + 1) n,
            (if dist i j < rcut then lennard_jones_potential (dist i j) 1 1
             else 0) := by
      intro i acc
      rw [foldl_ite_add (fun j => dist i j < rcut)
        (fun j => lennard_jones_potential (dist i j) 1 1),
        sum_map_range_drop]
    have hcode : compute_total_lj_potential x y z box rcut =
        ∑ i ∈ Finset.range n, ∑ j ∈ Finset.Ico (i + 1) n,
          (if dist i j < rcut then lennard_jones_potential (dist i j) 1 1
           else 0) := by
      show (List.range n).foldl
          (fun acc i =>
            ((List.range n).drop (i + 1)).foldl
              (fun acc2 j =>
                if dist i j < rcut then
                  acc2 + lennard_jones_potential (dist i j) 1 1
                else acc2) acc) 0 = _
      have hfun : (fun (acc : ℝ) (i : ℕ) =>
          ((List.range n).drop (i + 1)).foldl
            (fun acc2 j =>
              if dist i j < rcut then
                acc2 + lennard_jones_potential (dist i j) 1 1
              else acc2) acc) =
          (fun (acc : ℝ) (i : ℕ) =>
            acc + ∑ j ∈ Finset.Ico (i + 1) n,
              (if dist i j < rcut then lennard_jones_potential (dist i j) 1 1
               else 0)) := by
        funext acc i
        exact hinner i acc
      rw [hfun, foldl_add_eq, sum_map_range]
      simp
    rw [hcode]
    show _ = ∑ p ∈ (Finset.range n ×ˢ Finset.range n).filter
        (fun p => p.1 < p.2),
      (if dist p.1 p.2 < rcut then
        4 * 1 * ((1 / dist p.1 p.2) ^ 12 - (1 / dist p.1 p.2) ^ 6)
       else 0)
    rw [sum_filter_product_eq (fun p =>
      if dist p.1 p.2 < rcut then
        4 * 1 * ((1 / dist p.1 p.2) ^ 12 - (1 / dist p.1 p.2) ^ 6)
      else 0) n]
    refine Finset.sum_congr rfl (fun i _ => Finset.sum_congr rfl (fun j _ => ?_))
    by_cases h : dist i j < rcut <;>
      simp [h, lennard_jones_potential]
  · intro a b c box rcut
    rfl

/-- Helper: `np.round` differs from its argument by at most one half. -/
theorem abs_sub_rne_le_half (t : ℝ) : |t - (rne t : ℝ)| ≤ 1 / 2 := by
  have h0 : 0 ≤ Int.fract t := Int.fract_nonneg t
  have h1 : Int.fract t < 1 := Int.fract_lt_one t
  have hfl := Int.floor_add_fract t
  unfold rne
  split_ifs with hlt hgt hev
  · rw [abs_le]
    constructor <;> linarith
  · rw [abs_le]
    constructor <;> push_cast <;> linarith
  · have hfe : Int.fract t = 1 / 2 :=
      le_antisymm (not_lt.mp hgt) (not_lt.mp hlt)
    rw [abs_le]
    constructor <;> linarith
  · have hfe : Int.fract t = 1 / 2 :=
      le_antisymm (not_lt.mp hgt) (not_lt.mp hlt)
    rw [abs_le]
    constructor <;> push_cast <;> linarith

/-- Helper: `np.round` is an odd function (ties go to even integers, and
negation preserves evenness). -/
theorem rne_neg (x : ℝ) : rne (-x) = -rne x := by
  by_cases h0 : Int.fract x = 0
  · have hx : (⌊x⌋ : ℝ) = x := by
      have := Int.floor_add_fract x
      rw [h0] at this
      linarith
    have hfn : Int.fract (-x) = 0 := Int.fract_neg_eq_zero.mpr h0
    have hfl : ⌊-x⌋ = -⌊x⌋ := by
      rw [show -x = ((-⌊x⌋ : ℤ) : ℝ) by push_cast; linarith]
      exact Int.floor_intCast _
    unfold rne
    rw [h0, hfn, hfl]
    norm_num
  · have hfn : Int.fract (-x) = 1 - Int.fract x := Int.fract_neg h0
    have hfl : ⌊-x⌋ = -⌊x⌋ - 1 := by
      have h1 := Int.floor_add_fract x
      have h2 := Int.floor_add_fract (-x)
      rw [hfn] at h2
      have hcast : ((⌊-x⌋ : ℤ) : ℝ) = ((-⌊x⌋ - 1 : ℤ) : ℝ) := by
        push_cast
        linarith
      exact_mod_cast hcast
    unfold rne
    rw [hfn, hfl]
    rcases lt_trichotomy (Int.fract x) (1 / 2) with hlt | heq | hgt
    · rw [if_neg (show ¬(1 - Int.fract x < 1 / 2) by
          rw [not_lt]; linarith),
        if_pos (show 1 / 2 < 1 - Int.fract x by linarith),
        if_pos hlt]
      omega
    · rw [if_neg (show ¬(1 - Int.fract x < 1 / 2) by rw [heq, not_lt]; norm_num),
        if_neg (show ¬(1 / 2 < 1 - Int.fract x) by rw [heq, not_lt]; norm_num),
        if_neg (show ¬(Int.fract x < 1 / 2) by rw [heq, not_lt]),
        if_neg (show ¬(1 / 2 < Int.fract x) by rw [heq, not_lt])]
      by_cases hev : ⌊x⌋ % 2 = 0
      · rw [if_pos hev, if_neg (show ¬((-⌊x⌋ - 1) % 2 = 0) by omega)]
        omega
      · rw [if_neg hev, if_pos (show (-⌊x⌋ - 1) % 2 = 0 by omega)]
        omega
    · rw [if_pos (show 1 - Int.fract x < 1 / 2 by linarith),
        if_neg (show ¬(Int.fract x < 1 / 2) by rw [not_lt]; linarith),
        if_pos hgt]
      omega

/-- Helper: each wrapped axis offset is at most half the box length. -/
theorem abs_minImage_le (d L : ℝ) (hL : 0 < L) : |minImage d L| ≤ L / 2 := by
  have h := abs_sub_rne_le_half (d / L)
  have key : minImage d L = L * (d / L - (rne (d / L) : ℝ)) := by
    unfold minImage
    field_simp
  rw [key, abs_mul, abs_of_pos hL]
  calc L * |d / L - (rne (d / L) : ℝ)| ≤ L * (1 / 2) :=
        mul_le_mul_of_nonneg_left h (le_of_lt hL)
    _ = L / 2 := by ring

/-- Helper: the per-axis wrap is odd in its offset argument. -/
theorem minImage_neg (d L : ℝ) : minImage (-d) L = -minImage d L := by
  unfold minImage
  rw [neg_div, rne_neg]
  push_cast
  ring

/-- Claim C8: `compute_distance` is symmetric in its two points, and on a box
with positive edge lengths its value lies in
`[0, √3/2 · max(box_dims)]`. -/
theorem c8_pbc_distance (x1 y1 z1 x2 y2 z2 Lx Ly Lz : ℝ)
    (hx : 0 < Lx) (hy : 0 < Ly) (hz : 0 < Lz) :
    compute_distance x1 y1 z1 x2 y2 z2 (Lx, Ly, Lz) =
      compute_distance x2 y2 z2 x1 y1 z1 (Lx, Ly, Lz) ∧
    0 ≤ compute_distance x1 y1 z1 x2 y2 z2 (Lx, Ly, Lz) ∧
    compute_distance x1 y1 z1 x2 y2 z2 (Lx, Ly, Lz) ≤
      Real.sqrt 3 / 2 * max Lx (max Ly Lz) := by
  refine ⟨?_, Real.sqrt_nonneg _, ?_⟩
  · show Real.sqrt (minImage (x1 - x2) Lx ^ 2 + minImage (y1 - y2) Ly ^ 2 +
        minImage (z1 - z2) Lz ^ 2) =
      Real.sqrt (minImage (x2 - x1) Lx ^ 2 + minImage (y2 - y1) Ly ^ 2 +
        minImage (z2 - z1) Lz ^ 2)
    rw [show x2 - x1 = -(x1 - x2) by ring, show y2 - y1 = -(y1 - y2) by ring,
      show z2 - z1 = -(z1 - z2) by ring, minImage_neg, minImage_neg,
      minImage_neg, neg_pow, neg_pow, neg_pow]
    norm_num
  · set M := max Lx (max Ly Lz) with hM
    have hxM : Lx ≤ M := le_max_left _ _
    have hyM : Ly ≤ M := le_trans (le_max_left _ _) (le_max_right _ _)
    have hzM : Lz ≤ M := le_trans (le_max_right _ _) (le_max_right _ _)
    have hM0 : 0 < M := lt_of_lt_of_le hx hxM
    have bx : |minImage (x1 - x2) Lx| ≤ M / 2 :=
      le_trans (abs_minImage_le _ _ hx) (by linarith)
    have bY : |minImage (y1 - y2) Ly| ≤ M / 2 :=
      le_trans (abs_minImage_le _ _ hy) (by linarith)
    have bz : |minImage (z1 - z2) Lz| ≤ M / 2 :=
      le_trans (abs_minImage_le _ _ hz) (by linarith)
    have q1 : minImage (x1 - x2) Lx ^ 2 ≤ (M / 2) ^ 2 := by
      rw [← sq_abs]
      exact pow_le_pow_left₀ (abs_nonneg _) bx 2
    have q2 : minImage (y1 - y2) Ly ^ 2 ≤ (M / 2) ^ 2 := by
      rw [← sq_abs]
      exact pow_le_pow_left₀ (abs_nonneg _) bY 2
    have q3 : minImage (z1 - z2) Lz ^ 2 ≤ (M / 2) ^ 2 := by
      rw [← sq_abs]
      exact pow_le_pow_left₀ (abs_nonneg _) bz 2
    show Real.sqrt (minImage (x1 - x2) Lx ^ 2 + minImage (y1 - y2) Ly ^ 2 +
        minImage (z1 - z2) Lz ^ 2) ≤ Real.sqrt 3 / 2 * M
    calc Real.sqrt (minImage (x1 - x2) Lx ^ 2 + minImage (y1 - y2) Ly ^ 2 +
          minImage (z1 - z2) Lz ^ 2) ≤ Real.sqrt (3 * (M / 2) ^ 2) :=
          Real.sqrt_le_sqrt (by linarith)
      _ = Real.sqrt 3 / 2 * M := by
          rw [Real.sqrt_mul (by norm_num : (0 : ℝ) ≤ 3),
            Real.sqrt_sq (by positivity : (0 : ℝ) ≤ M / 2)]
          ring

/-- Claim C8 witness: the theorem applied at two coincident points in the
unit box. -/
theorem c8_pbc_distance_witness :
    (0 : ℝ) < 1 ∧
    (compute_distance 0 0 0 0 0 0 (1, 1, 1) =
        compute_distance 0 0 0 0 0 0 (1, 1, 1) ∧
      0 ≤ compute_distance 0 0 0 0 0 0 (1, 1, 1) ∧
      compute_distance 0 0 0 0 0 0 (1, 1, 1) ≤
        Real.sqrt 3 / 2 * max 1 (max 1 1)) :=
  ⟨by norm_num,
   c8_pbc_distance 0 0 0 0 0 0 1 1 1 (by norm_num) (by norm_num) (by norm_num)⟩

/-- Claim C6 (amended): no strain style is rejected anywhere.  The builder's
preprocessing silently coerces any style whose lower-cased form contains
"true" to `"t"` and leaves every other style value unchanged; the builder
then completes normally for any style, emitting `<style>rate` verbatim in the
deform command; and `calculate_strain_rate` returns
`ln((L_final + 2·skin) / L_initial) / t_elapsed` for style `"t"` and Python
`None` for every other style, instead of raising. -/
theorem c6_strain_style_not_rejected :
    (∀ s : String, containsSubChars "true".toList (pyLower s).toList = true →
      preprocess_strain_style s = "t") ∧
    (∀ s : String, containsSubChars "true".toList (pyLower s).toList = false →
      preprocess_strain_style s = s) ∧
    (∀ (p : DeformationParams) (st : LammpsStageState),
      (standard_uniaxial_deformation_stage p st).substage_nbr =
        st.substage_nbr + 1 ∧
      (standard_uniaxial_deformation_stage p st).script =
        st.script ++ standard_uniaxial_deformation_stage_lines p st) ∧
    (∀ d1 d2 t w : ℝ, calculate_strain_rate d1 d2 "t" t w =
      some (Real.log ((d2 + 2 * w) / d1) / t)) ∧
    (∀ (d1 d2 t w : ℝ) (s : String), s ≠ "t" →
      calculate_strain_rate d1 d2 s t w = none) := by
  refine ⟨fun s h => ?_, fun s h => ?_, fun p st => ⟨rfl, rfl⟩,
    fun d1 d2 t w => ?_, fun d1 d2 t w s h => ?_⟩
  · unfold preprocess_strain_style
    rw [if_pos h]
  · unfold preprocess_strain_style
    rw [if_neg (by simp only [Bool.not_eq_true]; exact h)]
  · simp [calculate_strain_rate]
  · simp [calculate_strain_rate, h]

/-- Claim C6 witness: the amended theorem applied to the GUI style
`"True strain"` (coerced), to the style `"e"` (left as is), and to
`calculate_strain_rate` at styles `"t"` and `"e"`. -/
theorem c6_strain_style_witness :
    (containsSubChars "true".toList (pyLower "True strain").toList = true ∧
      preprocess_strain_style "True strain" = "t") ∧
    (containsSubChars "true".toList (pyLower "e").toList = false ∧
      preprocess_strain_style "e" = "e") ∧
    (calculate_strain_rate 1 1 "t" 1 2 =
      some (Real.log ((1 + 2 * 2) / 1) / 1)) ∧
    (("e" : String) ≠ "t" ∧ calculate_strain_rate 1 1 "e" 1 2 = none) := by
  have h1 : containsSubChars "true".toList (pyLower "True strain").toList = true := by
    decide
  have h2 : containsSubChars "true".toList (pyLower "e").toList = false := by
    decide
  have h3 : ("e" : String) ≠ "t" := by decide
  exact ⟨⟨h1, c6_strain_style_not_rejected.1 _ h1⟩,
    ⟨h2, c6_strain_style_not_rejected.2.1 _ h2⟩,
    c6_strain_style_not_rejected.2.2.2.1 1 1 1 2,
    ⟨h3, c6_strain_style_not_rejected.2.2.2.2 1 1 1 2 "e" h3⟩⟩

/-- Claim C6 counterexample: requesting the unsupported style `"e"` is not
rejected — the deformation builder completes normally, increments the
substage counter and emits `fix dfrm all deform ... erate ...` built from the
style verbatim. -/
theorem c6_counterexample :
    preprocess_strain_style "e" = "e" ∧
    (standard_uniaxial_deformation_stage
        { comp_axis := "z", strain_style := "e" }
        (initLammpsStage 1)).substage_nbr = 2 ∧
    (standard_uniaxial_deformation_stage_lines
        { comp_axis := "z", strain_style := "e" }
        (initLammpsStage 1)).contains
      (.cmd ["fix", "dfrm", "all", "deform", "1000", "z", "erate",
        "${strainrate}", "units", "box", "remap", "x"]) = true := by
  refine ⟨by decide, rfl, by decide⟩

/-- Helper: `charDigitVal` inverts `digitChar10` on digit values. -/
theorem charDigitVal_digitChar10 {d : ℕ} (h : d < 10) :
    charDigitVal (digitChar10 d) = d := by
  interval_cases d <;> rfl

/-- Helper: `digitChar10` produces digit characters. -/
theorem isDigit_digitChar10 {d : ℕ} (h : d < 10) :
    (digitChar10 d).isDigit = true := by
  interval_cases d <;> rfl

/-- Helper: a digit character is not a minus sign. -/
theorem beq_dash_of_isDigit {c : Char} (h : c.isDigit = true) :
    (c == '-') = false := by
  rw [beq_eq_false_iff_ne]
  rintro rfl
  exact absurd h (by decide)

/-- Helper: a digit character is not a decimal point. -/
theorem bne_dot_of_isDigit {c : Char} (h : c.isDigit = true) :
    (c != '.') = true := by
  have hne : (c == '.') = false := by
    rw [beq_eq_false_iff_ne]
    rintro rfl
    exact absurd h (by decide)
  simp [bne, hne]

/-- Helper: a digit character is not whitespace. -/
theorem not_ws_of_isDigit {c : Char} (h : c.isDigit = true) :
    c.isWhitespace = false := by
  simp only [Char.isWhitespace, Bool.or_eq_false_iff, decide_eq_false_iff_not]
  refine ⟨⟨⟨?_, ?_⟩, ?_⟩, ?_⟩ <;> rintro rfl <;> exact absurd h (by decide)

/-- Helper: reading the big-endian digit characters of a little-endian digit
list recovers its `Nat.ofDigits` value. -/
theorem digitsToNat_ofDigits (ds : List ℕ) (hd : ∀ d ∈ ds, d < 10) :
    digitsToNat (ds.reverse.map digitChar10) = Nat.ofDigits 10 ds := by
  induction ds with
  | nil => rfl
  | cons d rest ih =>
      unfold digitsToNat at *
      rw [List.reverse_cons, List.map_append, List.foldl_append,
        ih (fun x hx => hd x (List.mem_cons_of_mem _ hx)),
        Nat.ofDigits_cons]
      simp only [List.map_cons, List.map_nil, List.foldl_cons, List.foldl_nil,
        charDigitVal_digitChar10 (hd d (List.mem_cons_self _ _))]
      omega

/-- Helper: parsing the rendered digits of `n` gives back `n`. -/
theorem digitsToNat_natDigitChars (n : ℕ) :
    digitsToNat (natDigitChars n) = n := by
  unfold natDigitChars
  rw [digitsToNat_ofDigits _ (fun d hd => Nat.digits_lt_base (by norm_num) hd),
    Nat.ofDigits_digits]

theorem digitsToNat_renderNatChars (n : ℕ) :
    digitsToNat (renderNatChars n) = n := by
  unfold renderNatChars
  split_ifs with h
  · rw [h]; rfl
  · exact digitsToNat_natDigitChars n

theorem digits_natDigitChars {n : ℕ} : ∀ c ∈ natDigitChars n, c.isDigit = true := by
  intro c hc
  obtain ⟨d, hd, rfl⟩ := List.mem_map.mp hc
  exact isDigit_digitChar10
    (Nat.digits_lt_base (by norm_num) (List.mem_reverse.mp hd))

theorem digits_renderNatChars {n : ℕ} :
    ∀ c ∈ renderNatChars n, c.isDigit = true := by
  unfold renderNatChars
  split_ifs with h
  · intro c hc; simp at hc; subst hc; rfl
  · exact digits_natDigitChars

theorem renderNatChars_ne_nil (n : ℕ) : renderNatChars n ≠ [] := by
  unfold renderNatChars
  split_ifs with h
  · simp
  · unfold natDigitChars
    simp [Nat.digits_ne_nil_iff_ne_zero.mpr h]

/-- Helper: leading zero characters do not change the parsed value. -/
theorem digitsToNat_replicate_zero (j : ℕ) (cs : List Char) :
    digitsToNat (List.replicate j '0' ++ cs) = digitsToNat cs := by
  induction j with
  | zero => rfl
  | succ j ih =>
      rw [List.replicate_succ, List.cons_append]
      unfold digitsToNat at *
      rw [List.foldl_cons]
      exact ih

theorem digitsToNat_padDigits (d k : ℕ) : digitsToNat (padDigits d k) = k := by
  unfold padDigits
  rw [digitsToNat_replicate_zero, digitsToNat_natDigitChars]

theorem digits_padDigits {d k : ℕ} : ∀ c ∈ padDigits d k, c.isDigit = true := by
  intro c hc
  rcases List.mem_append.mp hc with h | h
  · rw [List.eq_of_mem_replicate h]; rfl
  · exact digits_natDigitChars c h

theorem length_padDigits (d k : ℕ) (h : k < 10 ^ d) :
    (padDigits d k).length = d := by
  have hlen : (natDigitChars k).length ≤ d := by
    unfold natDigitChars
    rw [List.length_map, List.length_reverse]
    by_cases hk : k = 0
    · subst hk; simp
    · by_contra hgt
      push_neg at hgt
      have h1 := Nat.base_pow_length_digits_le 10 k (by norm_num) hk
      have h2 : (10 : ℕ) ^ (d + 1) ≤ 10 ^ (Nat.digits 10 k).length :=
        Nat.pow_le_pow_right (by norm_num) hgt
      have h3 : 10 * 10 ^ d ≤ 10 * k := by
        calc 10 * 10 ^ d = 10 ^ (d + 1) := by ring
          _ ≤ 10 ^ (Nat.digits 10 k).length := h2
          _ ≤ 10 * k := h1
      omega
  unfold padDigits
  rw [List.length_append, List.length_replicate]
  omega

/-- Helper: `takeWhile` keeps a list all of whose elements satisfy the
predicate. -/
theorem takeWhileAll {p : Char → Bool} :
    ∀ cs : List Char, (∀ c ∈ cs, p c = true) → cs.takeWhile p = cs := by
  intro cs h
  induction cs with
  | nil => rfl
  | cons c rest ih =>
      rw [List.takeWhile_cons, h c (List.mem_cons_self _ _)]
      rw [ih (fun x hx => h x (List.mem_cons_of_mem _ hx))]
      rfl

/-- Helper: `dropWhile` drops a list all of whose elements satisfy the
predicate. -/
theorem dropWhileAll {p : Char → Bool} :
    ∀ cs : List Char, (∀ c ∈ cs, p c = true) → cs.dropWhile p = [] := by
  intro cs h
  induction cs with
  | nil => rfl
  | cons c rest ih =>
      rw [List.dropWhile_cons, h c (List.mem_cons_self _ _)]
      exact ih (fun x hx => h x (List.mem_cons_of_mem _ hx))

theorem takeWhileAppendAll {p : Char → Bool} (cs ds : List Char)
    (h : ∀ c ∈ cs, p c = true) :
    (cs ++ ds).takeWhile p = cs ++ ds.takeWhile p := by
  induction cs with
  | nil => rfl
  | cons c rest ih =>
      rw [List.cons_append, List.takeWhile_cons, h c (List.mem_cons_self _ _),
        ih (fun x hx => h x (List.mem_cons_of_mem _ hx))]
      rfl

theorem dropWhileAppendAll {p : Char → Bool} (cs ds : List Char)
    (h : ∀ c ∈ cs, p c = true) :
    (cs ++ ds).dropWhile p = ds.dropWhile p := by
  induction cs with
  | nil => rfl
  | cons c rest ih =>
      rw [List.cons_append, List.dropWhile_cons, h c (List.mem_cons_self _ _)]
      exact ih (fun x hx => h x (List.mem_cons_of_mem _ hx))

/-- Helper: `float(...)` on a pure digit run. -/
theorem pyFloatAbs_digits (cs : List Char) (h1 : cs ≠ [])
    (h2 : ∀ c ∈ cs, c.isDigit = true) :
    pyFloatAbs cs = some ((digitsToNat cs : ℚ)) := by
  have ht : cs.takeWhile (fun c => c != '.') = cs :=
    takeWhileAll cs (fun c hc => bne_dot_of_isDigit (h2 c hc))
  have hd : cs.dropWhile (fun c => c != '.') = [] :=
    dropWhileAll cs (fun c hc => bne_dot_of_isDigit (h2 c hc))
  unfold pyFloatAbs
  simp only [ht, hd]
  rw [if_pos ⟨h1, List.all_eq_true.mpr h2⟩]

/-- Helper: `float(...)` on `digits.digits`. -/
theorem pyFloatAbs_dec (A B : List Char) (hA : A ≠ [])
    (hAd : ∀ c ∈ A, c.isDigit = true) (hBd : ∀ c ∈ B, c.isDigit = true) :
    pyFloatAbs (A ++ '.' :: B) =
      some ((digitsToNat A : ℚ) + (digitsToNat B : ℚ) / 10 ^ B.length) := by
  have ht : (A ++ '.' :: B).takeWhile (fun c => c != '.') = A := by
    rw [takeWhileAppendAll A _ (fun c hc => bne_dot_of_isDigit (hAd c hc)),
      List.takeWhile_cons]
    norm_num
  have hd : (A ++ '.' :: B).dropWhile (fun c => c != '.') = '.' :: B := by
    rw [dropWhileAppendAll A _ (fun c hc => bne_dot_of_isDigit (hAd c hc)),
      List.dropWhile_cons]
    norm_num
  unfold pyFloatAbs
  simp only [ht, hd]
  rw [if_pos ⟨by simp [hA], List.all_eq_true.mpr hAd, List.all_eq_true.mpr hBd⟩]

/-- Helper: `float(...)` on a string starting with a digit has no sign. -/
theorem pyFloat_cons_digit (c : Char) (cs : List Char) (h : c.isDigit = true) :
    pyFloat (String.mk (c :: cs)) = pyFloatAbs (c :: cs) := by
  show (if c == '-' then (pyFloatAbs cs).map Neg.neg
    else pyFloatAbs (c :: cs)) = _
  rw [beq_dash_of_isDigit h]
  simp

/-- Helper: `float(...)` strips a leading minus and negates. -/
theorem pyFloat_dash (cs : List Char) :
    pyFloat (String.mk ('-' :: cs)) = (pyFloatAbs cs).map Neg.neg := by
  show (if '-' == '-' then (pyFloatAbs cs).map Neg.neg
    else pyFloatAbs ('-' :: cs)) = _
  simp

/-- Helper: parsing a rendered value recovers its exact rational. -/
theorem pyFloat_renderVal (v : DumpVal) : pyFloat (renderVal v) = some (qOf v) := by
  cases v with
  | ival n =>
      by_cases hn : n < 0
      · have hchars : renderValChars (.ival n) = '-' :: renderNatChars n.natAbs := by
          simp [renderValChars, hn]
        unfold renderVal
        rw [hchars, pyFloat_dash,
          pyFloatAbs_digits _ (renderNatChars_ne_nil _) digits_renderNatChars,
          digitsToNat_renderNatChars]
        have hcast : ((n.natAbs : ℕ) : ℚ) = -(n : ℚ) := by
          rw [Int.cast_natAbs, abs_of_neg hn]
          push_cast
          ring
        rw [hcast]
        simp [qOf]
      · have hchars : renderValChars (.ival n) = renderNatChars n.natAbs := by
          simp [renderValChars, hn]
        unfold renderVal
        rw [hchars]
        rcases hc : renderNatChars n.natAbs with _ | ⟨c, cs⟩
        · exact absurd hc (renderNatChars_ne_nil _)
        · have hcd : c.isDigit = true := by
            apply digits_renderNatChars
            rw [hc]
            exact List.mem_cons_self _ _
          rw [pyFloat_cons_digit c cs hcd, ← hc,
            pyFloatAbs_digits _ (renderNatChars_ne_nil _) digits_renderNatChars,
            digitsToNat_renderNatChars]
          have hcast : ((n.natAbs : ℕ) : ℚ) = (n : ℚ) := by
            rw [Int.cast_natAbs, abs_of_nonneg (not_lt.mp hn)]
          rw [hcast]
          simp [qOf]
  | fval m d =>
      have hmod : m.natAbs % 10 ^ d < 10 ^ d :=
        Nat.mod_lt _ (Nat.pos_pow_of_pos d (by norm_num))
      have habs : pyFloatAbs (renderNatChars (m.natAbs / 10 ^ d) ++
          '.' :: padDigits d (m.natAbs % 10 ^ d)) =
          some ((m.natAbs : ℚ) / 10 ^ d) := by
        rw [pyFloatAbs_dec _ _ (renderNatChars_ne_nil _) digits_renderNatChars
          digits_padDigits, digitsToNat_renderNatChars, digitsToNat_padDigits,
          length_padDigits _ _ hmod]
        congr 1
        have hsplit : 10 ^ d * (m.natAbs / 10 ^ d) + m.natAbs % 10 ^ d =
            m.natAbs := Nat.div_add_mod _ _
        have h10 : ((10 : ℚ) ^ d) ≠ 0 := by positivity
        field_simp
        rw [mul_comm]
        exact_mod_cast hsplit
      by_cases hm : m < 0
      · have hchars : renderValChars (.fval m d) =
            '-' :: (renderNatChars (m.natAbs / 10 ^ d) ++
              '.' :: padDigits d (m.natAbs % 10 ^ d)) := by
          simp [renderValChars, hm]
        unfold renderVal
        rw [hchars, pyFloat_dash, habs]
        simp only [Option.map_some', qOf]
        congr 1
        have hcast : ((m.natAbs : ℕ) : ℚ) = -(m : ℚ) := by
          rw [Int.cast_natAbs, abs_of_neg hm]
          push_cast
          ring
        rw [hcast]
        ring
      · have hchars : renderValChars (.fval m d) =
            renderNatChars (m.natAbs / 10 ^ d) ++
              '.' :: padDigits d (m.natAbs % 10 ^ d) := by
          simp [renderValChars, hm]
        unfold renderVal
        rw [hchars]
        rcases hc : renderNatChars (m.natAbs / 10 ^ d) with _ | ⟨c, cs⟩
        · exact absurd hc (renderNatChars_ne_nil _)
        · have hcd : c.isDigit = true := by
            apply digits_renderNatChars
            rw [hc]
            exact List.mem_cons_self _ _
          rw [List.cons_append, pyFloat_cons_digit _ _ hcd,
            ← List.cons_append, ← hc, habs]
          simp only [qOf]
          congr 1
          have hcast : ((m.natAbs : ℕ) : ℚ) = (m : ℚ) := by
            rw [Int.cast_natAbs, abs_of_nonneg (not_lt.mp hm)]
          rw [hcast]

/-- Helper: `int(...)` on a leading minus sign. -/
theorem pyInt_dash (cs : List Char) :
    pyInt (String.mk ('-' :: cs)) =
      (if cs ≠ [] ∧ cs.all Char.isDigit then some (-(digitsToNat cs : ℤ))
       else none) := by
  show (if '-' == '-' then
      (if cs ≠ [] ∧ cs.all Char.isDigit then some (-(digitsToNat cs : ℤ))
       else none)
    else if ('-' :: cs).all Char.isDigit then
      some ((digitsToNat ('-' :: cs) : ℤ))
    else none) = _
  simp

/-- Helper: `int(...)` on a string starting with a digit. -/
theorem pyInt_cons_digit (c : Char) (cs : List Char) (h : c.isDigit = true) :
    pyInt (String.mk (c :: cs)) =
      (if (c :: cs).all Char.isDigit then some ((digitsToNat (c :: cs) : ℤ))
       else none) := by
  show (if c == '-' then
      (if cs ≠ [] ∧ cs.all Char.isDigit then some (-(digitsToNat cs : ℤ))
       else none)
    else if (c :: cs).all Char.isDigit then
      some ((digitsToNat (c :: cs) : ℤ))
    else none) = _
  rw [beq_dash_of_isDigit h]
  simp

/-- Helper: `int(...)` parses a rendered integer back. -/
theorem pyInt_renderVal (n : ℤ) : pyInt (renderVal (.ival n)) = some n := by
  by_cases hn : n < 0
  · have hchars : renderValChars (.ival n) = '-' :: renderNatChars n.natAbs := by
      simp [renderValChars, hn]
    unfold renderVal
    rw [hchars, pyInt_dash,
      if_pos ⟨renderNatChars_ne_nil _, List.all_eq_true.mpr digits_renderNatChars⟩,
      digitsToNat_renderNatChars]
    congr 1
    omega
  · have hchars : renderValChars (.ival n) = renderNatChars n.natAbs := by
      simp [renderValChars, hn]
    unfold renderVal
    rw [hchars]
    rcases hc : renderNatChars n.natAbs with _ | ⟨c, cs⟩
    · exact absurd hc (renderNatChars_ne_nil _)
    · have hcd : c.isDigit = true := by
        apply digits_renderNatChars
        rw [hc]
        exact List.mem_cons_self _ _
      rw [pyInt_cons_digit c cs hcd, ← hc,
        if_pos (List.all_eq_true.mpr digits_renderNatChars),
        digitsToNat_renderNatChars]
      congr 1
      omega

/-- Helper: the parser's float-then-int conversion of a rendered value is
the demoted value. -/
theorem pyNumOfToken_renderVal (v : DumpVal) :
    pyNumOfToken (renderVal v) = some (demote v) := by
  unfold pyNumOfToken
  rw [pyFloat_renderVal]
  cases v with
  | ival n => simp [qOf, demote]
  | fval m d => simp [qOf, demote]

/-- Helper: a rendered value is a single split field. -/
theorem isSingleToken_renderVal (v : DumpVal) :
    isSingleToken (renderVal v) = true := by
  have hms : ∀ c ∈ renderValChars v, c.isWhitespace = false := by
    intro c hc
    cases v with
    | ival n =>
        unfold renderValChars at hc
        rcases List.mem_append.mp hc with h | h
        · split_ifs at h <;> simp at h
          subst h
          rfl
        · exact not_ws_of_isDigit (digits_renderNatChars c h)
    | fval m d =>
        unfold renderValChars at hc
        rcases List.mem_append.mp hc with h | h
        · rcases List.mem_append.mp h with h2 | h2
          · split_ifs at h2 <;> simp at h2
            subst h2
            rfl
          · exact not_ws_of_isDigit (digits_renderNatChars c h2)
        · rcases List.mem_cons.mp h with h2 | h2
          · subst h2; rfl
          · exact not_ws_of_isDigit (digits_padDigits c h2)
  have hne : renderValChars v ≠ [] := by
    cases v with
    | ival n =>
        unfold renderValChars
        intro hcon
        rcases List.append_eq_nil.mp hcon with ⟨_, h2⟩
        exact renderNatChars_ne_nil _ h2
    | fval m d =>
        unfold renderValChars
        intro hcon
        rcases List.append_eq_nil.mp hcon with ⟨h1, h2⟩
        simp at h2
  unfold isSingleToken
  rw [show (renderVal v).toList = renderValChars v from rfl]
  rw [Bool.and_eq_true]
  constructor
  · simp [hne]
  · rw [List.all_eq_true]
    intro c hc
    simp [hms c hc]

/-- Helper: the split scanner passes over a whitespace-free run, pushing it
onto the accumulator. -/
theorem splitWsAux_nonws (t : List Char)
    (ht : ∀ c ∈ t, c.isWhitespace = false) :
    ∀ (cs acc : List Char),
      splitWsAux (t ++ cs) acc = splitWsAux cs (t.reverse ++ acc) := by
  induction t with
  | nil => intro cs acc; simp
  | cons c ts ih =>
      intro cs acc
      have hc : c.isWhitespace = false := ht c (List.mem_cons_self _ _)
      show splitWsAux (c :: (ts ++ cs)) acc = _
      rw [show splitWsAux (c :: (ts ++ cs)) acc =
          (if c.isWhitespace then
            (if acc.isEmpty then splitWsAux (ts ++ cs) []
             else acc.reverse :: splitWsAux (ts ++ cs) [])
           else splitWsAux (ts ++ cs) (c :: acc)) from rfl]
      rw [hc]
      simp only [Bool.false_eq_true, if_false]
      rw [ih (fun x hx => ht x (List.mem_cons_of_mem _ hx)) cs (c :: acc)]
      congr 1
      simp

/-- Helper: the split scanner on a joined token list recovers the tokens. -/
theorem splitWsAux_join (toks : List (List Char))
    (h : ∀ t ∈ toks, t ≠ [] ∧ ∀ c ∈ t, c.isWhitespace = false) :
    splitWsAux (joinSpaceChars toks) [] = toks := by
  induction toks with
  | nil => rfl
  | cons t rest ih =>
      rcases h t (List.mem_cons_self _ _) with ⟨ht1, ht2⟩
      cases rest with
      | nil =>
          show splitWsAux t [] = [t]
          rw [show t = t ++ ([] : List Char) by simp, splitWsAux_nonws t ht2]
          unfold splitWsAux
          simp [ht1]
      | cons r rs =>
          show splitWsAux (t ++ ' ' :: joinSpaceChars (r :: rs)) [] = _
          rw [splitWsAux_nonws t ht2, List.append_nil]
          rw [show splitWsAux (' ' :: joinSpaceChars (r :: rs)) t.reverse =
              (if (' ').isWhitespace then
                (if t.reverse.isEmpty then splitWsAux (joinSpaceChars (r :: rs)) []
                 else t.reverse.reverse :: splitWsAux (joinSpaceChars (r :: rs)) [])
               else splitWsAux (joinSpaceChars (r :: rs)) (' ' :: t.reverse))
            from rfl]
          rw [show (' ').isWhitespace = true from rfl, if_pos rfl]
          rw [if_neg (by simp [ht1]), List.reverse_reverse,
            ih (fun x hx => h x (List.mem_cons_of_mem _ hx))]

/-- Helper: `str.split()` of `" ".join(tokens)` recovers the tokens. -/
theorem pyTokens_joinSpace (toks : List String)
    (h : ∀ t ∈ toks, isSingleToken t = true) :
    pyTokens (joinSpace toks) = toks := by
  unfold pyTokens joinSpace
  rw [show (String.mk (joinSpaceChars (toks.map String.toList))).toList =
    joinSpaceChars (toks.map String.toList) from rfl]
  rw [splitWsAux_join _ ?props]
  case props =>
    intro t ht
    obtain ⟨s, hs, rfl⟩ := List.mem_map.mp ht
    have h2 := h s hs
    unfold isSingleToken at h2
    rw [Bool.and_eq_true] at h2
    refine ⟨?_, ?_⟩
    · intro hcon
      rw [show (s.toList : List Char) = [] from hcon] at h2
      simp at h2
    · intro c hc
      have := List.all_eq_true.mp h2.2 c hc
      simpa using this
  have hid : ∀ s : String, String.mk s.toList = s := fun s => rfl
  rw [List.map_map]
  refine (List.map_congr_left (fun s _ => hid s)).trans (List.map_id _)

/-- Helper: appending under a key distinct from the head entry skips it, for
a whole fold of appends. -/
theorem foldl_dictAppend_cons_ne (a : String) (e : List PyNum)
    (pairs : List (String × DumpVal)) (hk : ∀ p ∈ pairs, p.1 ≠ a) :
    ∀ d, pairs.foldl (fun d p => dictAppend d p.1 (demote p.2)) ((a, e) :: d) =
      (a, e) :: pairs.foldl (fun d p => dictAppend d p.1 (demote p.2)) d := by
  induction pairs with
  | nil => intro d; rfl
  | cons p ps ih =>
      intro d
      have hstep : dictAppend ((a, e) :: d) p.1 (demote p.2) =
          (a, e) :: dictAppend d p.1 (demote p.2) := by
        show (if a == p.1 then (a, e ++ [demote p.2]) :: d
          else (a, e) :: dictAppend d p.1 (demote p.2)) = _
        rw [show (a == p.1) = false from beq_eq_false_iff_ne.mpr
          (fun hcon => hk p (List.mem_cons_self _ _) hcon.symm)]
        simp
      rw [List.foldl_cons, List.foldl_cons, hstep,
        ih (fun x hx => hk x (List.mem_cons_of_mem _ hx)) _]

/-- Helper: the parser's initial dict is the empty-column table. -/
theorem tableOf_nil (attrs : List String) :
    tableOf attrs [] = attrs.map (fun a => (a, ([] : List PyNum))) := by
  induction attrs with
  | nil => rfl
  | cons a as ih => simp [tableOf, ih]

/-- Helper: appending one row's values under distinct attribute keys appends
one entry to every column. -/
theorem dict_step (attrs : List String) (hnodup : attrs.Nodup) :
    ∀ (r : List DumpVal) (rows : List (List DumpVal)),
      r.length = attrs.length →
      (attrs.zip r).foldl (fun d p => dictAppend d p.1 (demote p.2))
        (tableOf attrs rows) = tableOf attrs (rows ++ [r]) := by
  induction attrs with
  | nil =>
      intro r rows h
      simp [tableOf]
  | cons a as ih =>
      intro r rows h
      cases r with
      | nil => simp at h
      | cons v vr =>
          rw [List.zip_cons_cons, List.foldl_cons]
          rw [show tableOf (a :: as) rows =
            (a, rows.map (fun r => demote (r.headD (.ival 0)))) ::
              tableOf as (rows.map (fun r => r.tail)) from rfl]
          have hstep : dictAppend
              ((a, rows.map fun r => demote (r.headD (.ival 0))) ::
                tableOf as (rows.map fun r => r.tail)) a (demote v) =
              (a, (rows.map fun r => demote (r.headD (.ival 0))) ++ [demote v]) ::
                tableOf as (rows.map fun r => r.tail) := by
            show (if a == a then
              (a, (rows.map fun r => demote (r.headD (.ival 0))) ++ [demote v]) ::
                tableOf as (rows.map fun r => r.tail)
              else _) = _
            simp
          rw [hstep]
          have hne : ∀ p ∈ as.zip vr, p.1 ≠ a := by
            intro p hp hcon
            have hmem := (List.of_mem_zip hp).1
            rw [hcon] at hmem
            exact (List.nodup_cons.mp hnodup).1 hmem
          rw [foldl_dictAppend_cons_ne a _ _ hne]
          rw [ih (List.nodup_cons.mp hnodup).2 vr (rows.map fun r => r.tail)
            (by simp at h ⊢; omega)]
          rw [show tableOf (a :: as) (rows ++ [v :: vr]) =
            (a, (rows ++ [v :: vr]).map (fun r => demote (r.headD (.ival 0)))) ::
              tableOf as ((rows ++ [v :: vr]).map (fun r => r.tail)) from rfl]
          simp

/-- Helper: one data line of rendered values parses into the pure fold of
dict appends. -/
theorem parse_row (attrs : List String) (r : List DumpVal) :
    ∀ d, (attrs.zip (r.map renderVal)).foldlM
      (fun d av =>
        match pyNumOfToken av.2 with
        | some v => Except.ok (dictAppend d av.1 v)
        | none => Except.error ("Value " ++ av.2 ++ " from attribute " ++
            av.1 ++ " could not be converted into a number."))
      d =
      Except.ok ((attrs.zip r).foldl
        (fun d p => dictAppend d p.1 (demote p.2)) d) := by
  rw [List.zip_map_right]
  induction attrs.zip r with
  | nil => intro d; rfl
  | cons p ps ih =>
      intro d
      rw [List.map_cons, List.foldlM_cons, List.foldl_cons]
      show (match pyNumOfToken (renderVal p.2) with
        | some v => Except.ok (dictAppend d p.1 v)
        | none => Except.error ("Value " ++ renderVal p.2 ++
            " from attribute " ++ p.1 ++
            " could not be converted into a number.")) >>= _ = _
      rw [pyNumOfToken_renderVal]
      show Except.ok (dictAppend d p.1 (demote p.2)) >>= _ = _
      rw [show ∀ (x : List (String × List PyNum)) f,
        (Except.ok x : Except String (List (String × List PyNum))) >>= f = f x
        from fun x f => rfl]
      exact ih _

/-- Helper: the data loop over rendered rows produces the demoted column
table. -/
theorem parse_trajectory_data_renders (attrs : List String)
    (rows : List (List DumpVal)) (hnodup : attrs.Nodup)
    (hlen : ∀ r ∈ rows, r.length = attrs.length) :
    parse_trajectory_data attrs
        (rows.map (fun r => joinSpace (r.map renderVal))) =
      .ok (tableOf attrs rows) := by
  suffices hgen : ∀ (rs : List (List DumpVal)) (done : List (List DumpVal)),
      (∀ r ∈ rs, r.length = attrs.length) →
      (rs.map (fun r => joinSpace (r.map renderVal))).foldlM
        (fun dict line =>
          (attrs.zip (pyTokens line)).foldlM
            (fun d av =>
              match pyNumOfToken av.2 with
              | some v => Except.ok (dictAppend d av.1 v)
              | none => Except.error ("Value " ++ av.2 ++ " from attribute " ++
                  av.1 ++ " could not be converted into a number."))
            dict)
        (tableOf attrs done) = .ok (tableOf attrs (done ++ rs)) by
    have h0 := hgen rows [] hlen
    rw [tableOf_nil] at h0
    unfold parse_trajectory_data
    simpa using h0
  intro rs
  induction rs with
  | nil => intro done h; rw [List.append_nil]; rfl
  | cons r rest ih =>
      intro done h
      rw [List.map_cons, List.foldlM_cons]
      have htoks : pyTokens (joinSpace (r.map renderVal)) = r.map renderVal := by
        apply pyTokens_joinSpace
        intro t ht
        obtain ⟨v, hv, rfl⟩ := List.mem_map.mp ht
        exact isSingleToken_renderVal v
      rw [htoks, parse_row attrs r (tableOf attrs done),
        dict_step attrs hnodup r done (h r (List.mem_cons_self _ _))]
      rw [show ∀ (x : List (String × List PyNum)) f,
        (Except.ok x : Except String (List (String × List PyNum))) >>= f = f x
        from fun x f => rfl]
      rw [ih (done ++ [r]) (fun x hx => h x (List.mem_cons_of_mem _ hx))]
      rw [List.append_assoc]
      rfl

/-- Helper: `Except` bind on a success value. -/
theorem exbind_ok {α β : Type} (x : α) (f : α → Except String β) :
    (Except.ok x : Except String α) >>= f = f x := rfl

/-- Helper: `Except` pure is success. -/
theorem expure {α : Type} (x : α) :
    (pure x : Except String α) = Except.ok x := rfl

/-- Helper: Python indexing at 1 on a list with two or more elements. -/
theorem pyGetE_one {α : Type} (a b : α) (l : List α) :
    pyGetE (a :: b :: l) 1 = .ok b := rfl

/-- Helper: Python indexing at 3 on a list with four or more elements. -/
theorem pyGetE_three {α : Type} (a b c d : α) (l : List α) :
    pyGetE (a :: b :: c :: d :: l) 3 = .ok d := rfl

/-- Helper: Python indexing at 4 on a list with five or more elements. -/
theorem pyGetE_four {α : Type} (a b c d e : α) (l : List α) :
    pyGetE (a :: b :: c :: d :: e :: l) 4 = .ok e := rfl

/-- Helper: Python indexing at 8 on a list with nine or more elements. -/
theorem pyGetE_eight {α : Type} (a b c d e f g h i : α) (l : List α) :
    pyGetE (a :: b :: c :: d :: e :: f :: g :: h :: i :: l) 8 = .ok i := rfl

/-- Helper: Python indexing at -1 on a nine-element list. -/
theorem pyGetE_neg_one_nine {α : Type} (a b c d e f g h i : α) :
    pyGetE [a, b, c, d, e, f, g, h, i] (-1) = .ok i := rfl

/-- Helper: a rendered two-value box line splits back into its two fields. -/
theorem pyTokens_dims_line (a b : DumpVal) :
    pyTokens (joinSpace [renderVal a, renderVal b]) =
      [renderVal a, renderVal b] := by
  apply pyTokens_joinSpace
  intro t ht
  rcases List.mem_cons.mp ht with rfl | ht
  · exact isSingleToken_renderVal a
  rcases List.mem_cons.mp ht with rfl | ht
  · exact isSingleToken_renderVal b
  exact absurd ht (List.not_mem_nil t)

/-- Helper: the rendered attributes line splits back into the marker,
`ATOMS`, and the attribute names. -/
theorem pyTokens_atoms_line (attrs : List String)
    (htok : ∀ a ∈ attrs, isSingleToken a = true) :
    pyTokens (joinSpace ("ITEM:" :: "ATOMS" :: attrs)) =
      "ITEM:" :: "ATOMS" :: attrs := by
  apply pyTokens_joinSpace
  intro t ht
  rcases List.mem_cons.mp ht with rfl | ht
  · decide
  rcases List.mem_cons.mp ht with rfl | ht
  · decide
  exact htok t ht

/-- Helper: `parse_header` on a rendered frame header recovers the timestep,
atom count, box-bounds tags, box dimensions and attribute names. -/
theorem parse_header_renders (ts na : ℤ) (tag : String)
    (p1 p2 p3 : DumpVal × DumpVal) (attrs : List String)
    (htok : ∀ a ∈ attrs, isSingleToken a = true) :
    parse_header
      ["ITEM: TIMESTEP", renderVal (.ival ts), "ITEM: NUMBER OF ATOMS",
       renderVal (.ival na), "ITEM: BOX BOUNDS " ++ tag,
       joinSpace [renderVal p1.1, renderVal p1.2],
       joinSpace [renderVal p2.1, renderVal p2.2],
       joinSpace [renderVal p3.1, renderVal p3.2],
       joinSpace ("ITEM:" :: "ATOMS" :: attrs)] =
      .ok ⟨ts, na, (pyTokens ("ITEM: BOX BOUNDS " ++ tag)).drop 3,
        [qOf p1.1, qOf p1.2, qOf p2.1, qOf p2.2, qOf p3.1, qOf p3.2],
        attrs⟩ := by
  simp only [parse_header, pyGetE_one, pyGetE_three, pyGetE_four,
    pyGetE_eight, exbind_ok, pyInt_renderVal, ofOption,
    List.drop_succ_cons, List.drop_zero, List.take_succ_cons,
    List.take_zero, List.foldlM_cons, List.foldlM_nil,
    pyTokens_dims_line, List.mapM_cons, List.mapM_nil, pyFloat_renderVal,
    expure, pyTokens_atoms_line attrs htok, List.nil_append,
    List.cons_append, List.append_nil]

/-- Claim C9: round trip — rendering a well-formed trajectory frame (three
box-dimension pairs, duplicate-free whitespace-free attribute names, one
value per attribute per row) and re-parsing its nine header lines and its
data lines with `parse_trajectory` reproduces the original per-atom
attribute-value table exactly, with each value demoted float-then-int as
the parser does, together with the frame's header fields. -/
theorem c9_round_trip (f : DumpFrame)
    (hbox : f.boxDims.length = 3)
    (hnodup : f.attributes.Nodup)
    (htok : ∀ a ∈ f.attributes, isSingleToken a = true)
    (hrows : ∀ r ∈ f.rows, r.length = f.attributes.length) :
    parse_trajectory ((renderFrame f).take 9) ((renderFrame f).drop 9) =
      .ok (⟨f.timestep, (f.rows.length : ℤ),
        (pyTokens ("ITEM: BOX BOUNDS " ++ f.boxBoundsTag)).drop 3,
        (f.boxDims.map (fun ab => [qOf ab.1, qOf ab.2])).flatten,
        f.attributes⟩,
      tableOf f.attributes f.rows) := by
  obtain ⟨q1, q2, q3, hbd⟩ := List.length_eq_three.mp hbox
  have htake : (renderFrame f).take 9 =
      ["ITEM: TIMESTEP", renderVal (.ival f.timestep),
       "ITEM: NUMBER OF ATOMS", renderVal (.ival (f.rows.length : ℤ)),
       "ITEM: BOX BOUNDS " ++ f.boxBoundsTag,
       joinSpace [renderVal q1.1, renderVal q1.2],
       joinSpace [renderVal q2.1, renderVal q2.2],
       joinSpace [renderVal q3.1, renderVal q3.2],
       joinSpace ("ITEM:" :: "ATOMS" :: f.attributes)] := by
    unfold renderFrame
    rw [hbd]
    rfl
  have hdrop : (renderFrame f).drop 9 =
      f.rows.map (fun r => joinSpace (r.map renderVal)) := by
    unfold renderFrame
    rw [hbd]
    rfl
  rw [htake, hdrop, hbd]
  simp only [parse_trajectory, pyGetE_neg_one_nine, exbind_ok,
    pyTokens_atoms_line f.attributes htok, List.drop_succ_cons,
    List.drop_zero,
    parse_trajectory_data_renders f.attributes f.rows hnodup hrows,
    parse_header_renders f.timestep (f.rows.length : ℤ)
      f.boxBoundsTag q1 q2 q3 f.attributes htok,
    expure, List.map_cons, List.map_nil, List.flatten_cons,
    List.flatten_nil, List.cons_append, List.nil_append, List.append_nil]

/-- Witness for C9 at a concrete one-row, two-attribute frame. -/
theorem c9_round_trip_witness :
    (DumpFrame.mk 7 "pp" [(DumpVal.ival 0, DumpVal.ival 1),
        (DumpVal.ival 0, DumpVal.ival 1), (DumpVal.ival 0, DumpVal.ival 1)]
        ["id", "x"] [[DumpVal.ival 1, DumpVal.fval 15 1]]).boxDims.length
      = 3 ∧
    (["id", "x"] : List String).Nodup ∧
    (∀ a ∈ (["id", "x"] : List String), isSingleToken a = true) ∧
    (∀ r ∈ [[DumpVal.ival 1, DumpVal.fval 15 1]],
      r.length = (["id", "x"] : List String).length) ∧
    parse_trajectory
        ((renderFrame (DumpFrame.mk 7 "pp" [(DumpVal.ival 0, DumpVal.ival 1),
          (DumpVal.ival 0, DumpVal.ival 1), (DumpVal.ival 0, DumpVal.ival 1)]
          ["id", "x"] [[DumpVal.ival 1, DumpVal.fval 15 1]])).take 9)
        ((renderFrame (DumpFrame.mk 7 "pp" [(DumpVal.ival 0, DumpVal.ival 1),
          (DumpVal.ival 0, DumpVal.ival 1), (DumpVal.ival 0, DumpVal.ival 1)]
          ["id", "x"] [[DumpVal.ival 1, DumpVal.fval 15 1]])).drop 9) =
      .ok (⟨7, (1 : ℤ),
        (pyTokens ("ITEM: BOX BOUNDS " ++ "pp")).drop 3,
        (([(DumpVal.ival 0, DumpVal.ival 1), (DumpVal.ival 0, DumpVal.ival 1),
          (DumpVal.ival 0, DumpVal.ival 1)]).map
            (fun ab => [qOf ab.1, qOf ab.2])).flatten,
        ["id", "x"]⟩,
      tableOf ["id", "x"] [[DumpVal.ival 1, DumpVal.fval 15 1]]) :=
  ⟨by decide, by decide, by decide, by decide,
    c9_round_trip
      (DumpFrame.mk 7 "pp" [(DumpVal.ival 0, DumpVal.ival 1),
        (DumpVal.ival 0, DumpVal.ival 1), (DumpVal.ival 0, DumpVal.ival 1)]
        ["id", "x"] [[DumpVal.ival 1, DumpVal.fval 15 1]])
      (by decide) (by decide) (by decide) (by decide)⟩

/-- Claim C10: on a non-empty directory whose file names do not match the
configured substage lists, `calculate_progress` raises an uncaught exception
instead of returning a pair: a file `3.1_x` with only two configured stages
raises `IndexError`, and a file `1.7_x` with substage 7 absent from stage 1
raises `ValueError`. -/
theorem c10_calculate_progress_raises :
    calculate_progress ["3.1_x"] [[1, 2], [1]] = .error .indexError ∧
      calculate_progress ["1.7_x"] [[1, 2], [1]] = .error .valueError := by
  constructor <;> rfl

end Scymol
